import Mathlib

/-! The mdlabels web proxy (`cmd/mdlabel-web/main.go`).

A shallow embedding of the HTTP proxy: the rate limiter guarding the search
API, the four proxying handlers, the API router and the static file handler,
followed by the properties proved about them.

Conventions of the embedding.

* A Go `string` is a list of characters (`GoString`); the byte-level library
  functions the program calls (`strings.Trim`, `strings.Split`,
  `strings.HasPrefix`, `strings.HasSuffix`) are only ever applied with the
  one-byte ASCII argument `/` or an ASCII literal, for which working per
  character and per byte agree on UTF-8 text.
* A handler receives a fresh `http.ResponseWriter`; the embedding returns the
  writer as the handler leaves it, together with the new state of the world
  (clock, rate limiter, log of outbound calls).
* The network is a parameter (`Upstream`): what `http.NewRequest` accepts and
  what the round trip answers for a URL. The embedded asset tree is a
  parameter too (`AssetFS`).
* Library calls (`net/http`, `net/url`, `encoding/base64`, `io/fs`, `path`)
  are rendered by what they do for the arguments the program passes them.
-/

namespace MdLabels

/-! ## Strings -/

/-- Go strings, read as their sequence of characters. -/
abbrev GoString := List Char

/-- One byte of a body. -/
abbrev Byte := Fin 256

/-- Go `strings.HasPrefix`: `len(s) >= len(p) && s[:len(p)] == p`. -/
def HasPrefix (s p : GoString) : Bool :=
  decide (p.length ≤ s.length) && (s.take p.length == p)

/-- Go `strings.HasSuffix`: `len(s) >= len(p) && s[len(s)-len(p):] == p`. -/
def HasSuffix (s p : GoString) : Bool :=
  decide (p.length ≤ s.length) && (s.drop (s.length - p.length) == p)

/-- Go `strings.TrimPrefix`. -/
def TrimPrefix (s p : GoString) : GoString :=
  if HasPrefix s p then s.drop p.length else s

/-- Go `strings.TrimSuffix`. -/
def TrimSuffix (s p : GoString) : GoString :=
  if HasSuffix s p then s.take (s.length - p.length) else s

/-- Go `strings.TrimLeft`: drop the leading characters that are in `cutset`. -/
def TrimLeft (s cutset : GoString) : GoString :=
  s.dropWhile (fun c => decide (c ∈ cutset))

/-- Go `strings.TrimRight`: drop the trailing characters that are in `cutset`. -/
def TrimRight (s cutset : GoString) : GoString :=
  (s.reverse.dropWhile (fun c => decide (c ∈ cutset))).reverse

/-- Go `strings.Trim`: both ends. -/
def Trim (s cutset : GoString) : GoString :=
  TrimRight (TrimLeft s cutset) cutset

/-- Go `strings.Split(s, sep)` for a one-character separator: the pieces of `s`
between the occurrences of `sep`; one more piece than occurrences, so never
empty (`Split "" sep` is the one-element list holding the empty string). -/
def Split : GoString → Char → List GoString
  | [], _ => [[]]
  | c :: cs, sep =>
    if c = sep then [] :: Split cs sep
    else match Split cs sep with
      | [] => [[c]]
      | x :: xs => (c :: x) :: xs

/-- Go `strings.Join` with a one-character separator. -/
def Join : List GoString → Char → GoString
  | [], _ => []
  | [x], _ => x
  | x :: y :: rest, sep => x ++ sep :: Join (y :: rest) sep

/-- Decimal rendering of a status code, the `%d` verb of `fmt.Sprintf`. -/
def itoa (n : Nat) : GoString := (Nat.repr n).toList

/-! ## `net/url`: `QueryEscape` -/

/-- The UTF-8 bytes of a character. -/
def utf8Bytes (c : Char) : List Nat :=
  let n := c.toNat
  if n < 0x80 then [n]
  else if n < 0x800 then [0xC0 + n / 64, 0x80 + n % 64]
  else if n < 0x10000 then [0xE0 + n / 4096, 0x80 + n / 64 % 64, 0x80 + n % 64]
  else [0xF0 + n / 262144, 0x80 + n / 4096 % 64, 0x80 + n / 64 % 64, 0x80 + n % 64]

/-- Go `url.shouldEscape(c, encodeQueryComponent)`: only the unreserved
characters (letters, digits, `-`, `_`, `.`, `~`) are left alone. -/
def shouldEscape (c : Char) : Bool :=
  !(('a' ≤ c && c ≤ 'z') || ('A' ≤ c && c ≤ 'Z') || ('0' ≤ c && c ≤ '9')
    || c == '-' || c == '_' || c == '.' || c == '~')

/-- The digit `upperhex[d]` for `d < 16`. -/
def upperhex (d : Nat) : Char :=
  "0123456789ABCDEF".toList.getD d '0'

/-- Go `url.QueryEscape`: a space becomes `+`, every other byte that must be
escaped becomes `%XX`. -/
def QueryEscape (s : GoString) : GoString :=
  s.flatMap fun c =>
    if shouldEscape c then
      if c = ' ' then ['+']
      else (utf8Bytes c).flatMap fun b => ['%', upperhex (b / 16), upperhex (b % 16)]
    else [c]

/-! ## `encoding/base64`: the standard encoding -/

/-- The alphabet of `base64.StdEncoding`. -/
def encodeStd : GoString :=
  "ABCDEFGHIJKLMNOPQRSTUVWXYZabcdefghijklmnopqrstuvwxyz0123456789+/".toList

/-- The character of a six-bit value. -/
def enc6 (v : Nat) : Char := encodeStd.getD v 'A'

/-- Go `(*Encoding).EncodeToString` of `StdEncoding`: three bytes give four
characters; a tail of one or two bytes is padded with `=`. -/
def EncodeToString : List Byte → GoString
  | a :: b :: c :: rest =>
    let v := a.val * 65536 + b.val * 256 + c.val
    enc6 (v / 262144 % 64) :: enc6 (v / 4096 % 64) :: enc6 (v / 64 % 64) :: enc6 (v % 64)
      :: EncodeToString rest
  | [a, b] =>
    let v := a.val * 65536 + b.val * 256
    [enc6 (v / 262144 % 64), enc6 (v / 4096 % 64), enc6 (v / 64 % 64), '=']
  | [a] =>
    let v := a.val * 65536
    [enc6 (v / 262144 % 64), enc6 (v / 4096 % 64), '=', '=']
  | [] => []

/-- The decode map of `StdEncoding`: the six-bit value of an alphabet
character, `none` for any other character. -/
def dec6 (c : Char) : Option Nat :=
  if 'A' ≤ c ∧ c ≤ 'Z' then some (c.toNat - 65)
  else if 'a' ≤ c ∧ c ≤ 'z' then some (c.toNat - 97 + 26)
  else if '0' ≤ c ∧ c ≤ '9' then some (c.toNat - 48 + 52)
  else if c = '+' then some 62
  else if c = '/' then some 63
  else none

/-- The byte `byte(v)` of a Go conversion: the low eight bits. -/
def toByte (v : Nat) : Byte := ⟨v % 256, Nat.mod_lt _ (by decide)⟩

/-- One pass of Go's `decodeQuantum` loop over input without line breaks:
quanta of four characters give three bytes each; the last quantum may end in
`=` (two bytes) or `==` (one byte); `none` stands for `CorruptInputError`
(a character outside the alphabet, padding anywhere else, a short quantum). -/
def decodeQuanta : GoString → Option (List Byte)
  | [] => some []
  | c0 :: c1 :: c2 :: c3 :: rest =>
    if rest = [] ∧ c3 = '=' then
      if c2 = '=' then
        match dec6 c0, dec6 c1 with
        | some v0, some v1 => some [toByte ((v0 * 262144 + v1 * 4096) / 65536)]
        | _, _ => none
      else
        match dec6 c0, dec6 c1, dec6 c2 with
        | some v0, some v1, some v2 =>
          some [toByte ((v0 * 262144 + v1 * 4096 + v2 * 64) / 65536),
                toByte ((v0 * 262144 + v1 * 4096 + v2 * 64) / 256)]
        | _, _, _ => none
    else
      match dec6 c0, dec6 c1, dec6 c2, dec6 c3, decodeQuanta rest with
      | some v0, some v1, some v2, some v3, some tl =>
        some (toByte ((v0 * 262144 + v1 * 4096 + v2 * 64 + v3) / 65536)
          :: toByte ((v0 * 262144 + v1 * 4096 + v2 * 64 + v3) / 256)
          :: toByte (v0 * 262144 + v1 * 4096 + v2 * 64 + v3) :: tl)
      | _, _, _, _, _ => none
  | _ => none

/-- Go `(*Encoding).DecodeString` of `StdEncoding`: carriage returns and line
feeds in the input are skipped, the rest is decoded quantum by quantum. -/
def DecodeString (s : GoString) : Option (List Byte) :=
  decodeQuanta (s.filter fun c => !(c == '\r' || c == '\n'))

/-! ## Time and the rate limiter -/

/-! A `time.Time` is a reading of the clock in nanoseconds and a
`time.Duration` a count of nanoseconds; both are integers here. The 64-bit
range of `Duration` appears where the program computes with durations:
`Sub` saturates and the subtraction in `Wait` wraps around. -/

/-- The largest `time.Duration`. -/
def maxDuration : Int := 2 ^ 63 - 1

/-- The smallest `time.Duration`. -/
def minDuration : Int := -(2 ^ 63)

/-- Two's-complement wrap-around of 64-bit arithmetic. -/
def wrap64 (x : Int) : Int := (x + 2 ^ 63) % 2 ^ 64 - 2 ^ 63

/-- Go `Time.Sub`: the difference `t - u`, saturated to the range of
`Duration`. -/
def Sub (t u : Int) : Int :=
  if t - u > maxDuration then maxDuration
  else if t - u < minDuration then minDuration
  else t - u

/-- Go `time.Millisecond`, in nanoseconds. -/
def Millisecond : Int := 1000000

/-- The limiter of `main.go`; the mutex `mu` serialises the calls of `Wait`,
which the embedding renders by running each `Wait` as one step. -/
structure RateLimiter where
  lastRequest : Int
  minInterval : Int
deriving DecidableEq, Repr

/-- Go `NewRateLimiter`: `lastRequest` starts as the zero `time.Time`. -/
def NewRateLimiter (minInterval : Int) : RateLimiter :=
  { lastRequest := 0, minInterval := minInterval }

/-- The package-level `mbRateLimiter`: 50 requests per second. -/
def mbRateLimiter : RateLimiter := NewRateLimiter (20 * Millisecond)

/-- What the environment decides during one call of `Wait`: how much time
passes before `time.Since` reads the clock, by how much `time.Sleep(d)`
oversleeps `d`, and how much time passes before `time.Now` reads the clock.
The three are natural numbers: the clock never runs backwards and `Sleep(d)`
lasts at least `d`. -/
structure Sched where
  beforeSince : Nat
  oversleep : Nat
  beforeNow : Nat
deriving DecidableEq, Repr

/-- Go `time.Sleep(d)` started at clock reading `t`: returns at once when
`d <= 0`, otherwise after `d` and the oversleep. -/
def Sleep (t : Int) (d : Int) (oversleep : Nat) : Int :=
  if d ≤ 0 then t else t + d + oversleep

/-- Go `(*RateLimiter).Wait`, run at clock reading `clock`: the new limiter
and the clock reading when the call returns (the value stamped into
`lastRequest`). -/
def RateLimiter.Wait (rl : RateLimiter) (clock : Int) (e : Sched) : RateLimiter × Int :=
  let t1 := clock + e.beforeSince
  let elapsed := Sub t1 rl.lastRequest
  let t2 := if elapsed < rl.minInterval then
      Sleep t1 (wrap64 (rl.minInterval - elapsed)) e.oversleep
    else t1
  let now := t2 + e.beforeNow
  ({ rl with lastRequest := now }, now)

/-- A sequence of calls of `Wait` on one limiter, one call after the other:
the timestamps stamped into `lastRequest`, in order. -/
def waitStamps : RateLimiter → Int → List Sched → List Int
  | _, _, [] => []
  | rl, clock, e :: es =>
    let r := rl.Wait clock e
    r.2 :: waitStamps r.1 r.2 es

/-! ## `net/http`: the response writer -/

/-- A piece written to the response body. `json` is the object
`json.NewEncoder(w).Encode` is given, as its key/value pairs in key order;
`bytes` are bytes copied from an upstream body. -/
inductive Chunk where
  | text (s : GoString)
  | json (obj : List (GoString × GoString))
  | bytes (b : List Byte)
deriving DecidableEq, Repr

/-- The state of an `http.ResponseWriter`: the header map, the informational
(1xx) responses already sent, the status code once the final header has been
written, the body written so far, and whether the handler panicked. A
handler that panics runs no further: the server recovers the panic and closes
the connection, and the caller receives what had been sent before, here
nothing. -/
structure ResponseWriter where
  header : List (GoString × GoString)
  informational : List Nat
  status : Option Nat
  body : List Chunk
  panicked : Bool
deriving DecidableEq, Repr

/-- The writer a handler is handed. -/
def ResponseWriter.fresh : ResponseWriter :=
  { header := [], informational := [], status := none, body := [], panicked := false }

/-- Go `w.Header().Set(k, v)`: replaces what the key held. (Nothing runs after
a panic.) -/
def ResponseWriter.Set (w : ResponseWriter) (k v : GoString) : ResponseWriter :=
  if w.panicked then w
  else { w with header := (k, v) :: w.header.filter (fun kv => kv.1 != k) }

/-- Go `w.WriteHeader(code)`: once the final header is written a further call
is ignored; otherwise a code outside 100..999 panics
(`checkWriteHeaderCode`), a 1xx code other than 101 is sent as an
informational response and leaves the final header unwritten, and any other
code becomes the status of the response. -/
def ResponseWriter.WriteHeader (w : ResponseWriter) (code : Nat) : ResponseWriter :=
  if w.panicked then w
  else
    match w.status with
    | some _ => w
    | none =>
      if code < 100 ∨ code > 999 then { w with panicked := true }
      else if 100 ≤ code ∧ code ≤ 199 ∧ code ≠ 101 then
        { w with informational := w.informational ++ [code] }
      else { w with status := some code }

/-- Go `w.Write(p)`: writes the header with status 200 when none was written,
then the body. -/
def ResponseWriter.Write (w : ResponseWriter) (c : Chunk) : ResponseWriter :=
  if w.panicked then w
  else
    let w1 := w.WriteHeader 200
    { w1 with body := w1.body ++ [c] }

/-- The status code of the response the caller receives: the one written, or
200 when the handler returned without writing any; 0 stands for no response
at all, which is what the caller gets when the handler panicked. -/
def ResponseWriter.StatusCode (w : ResponseWriter) : Nat :=
  if w.panicked then 0 else w.status.getD 200

/-- Go `http.Error(w, msg, code)`: sets the plain-text headers, calls
`w.WriteHeader(code)` and prints the message. -/
def Error (w : ResponseWriter) (msg : GoString) (code : Nat) : ResponseWriter :=
  (((w.Set "Content-Type".toList "text/plain; charset=utf-8".toList).Set
    "X-Content-Type-Options".toList "nosniff".toList).WriteHeader code).Write
      (Chunk.text (msg ++ ['\n']))

/-- Go `json.NewEncoder(w).Encode(obj)` for a `map[string]string`. -/
def Encode (w : ResponseWriter) (obj : List (GoString × GoString)) : ResponseWriter :=
  w.Write (Chunk.json obj)

/-- Go `io.Copy(w, body)`: nothing is written for an empty body. -/
def Copy (w : ResponseWriter) (body : List Byte) : ResponseWriter :=
  if body = [] then w else w.Write (Chunk.bytes body)

/-- The status codes of `net/http` the handlers name. -/
def StatusOK : Nat := 200
/-- Status 400. -/
def StatusBadRequest : Nat := 400
/-- Status 404. -/
def StatusNotFound : Nat := 404
/-- Status 500. -/
def StatusInternalServerError : Nat := 500
/-- Status 502. -/
def StatusBadGateway : Nat := 502
/-- Status 301. -/
def StatusMovedPermanently : Nat := 301

/-! ## Requests, the upstream services, the world -/

/-- The part of an `*http.Request` the handlers read: `r.URL.Path` and the
parsed query `r.URL.Query()` as its key/value pairs in order of appearance. -/
structure Request where
  Path : GoString
  Query : List (GoString × GoString)
deriving DecidableEq, Repr

/-- Go `url.Values.Get`: the first value of the key, the empty string when the
key is absent. -/
def Get (q : List (GoString × GoString)) (key : GoString) : GoString :=
  match q.find? (fun kv => kv.1 == key) with
  | some kv => kv.2
  | none => []

/-- An upstream `*http.Response`: status code, `Content-Type` header, the body
bytes that could be read, and whether reading the body ended in an error. -/
structure UpstreamResponse where
  StatusCode : Nat
  ContentType : GoString
  Body : List Byte
  readErr : Bool
deriving DecidableEq, Repr

/-- The network as the handlers see it: whether `http.NewRequest` accepts a
URL, and what the round trip of a GET answers (`none` is a transport error). -/
structure Upstream where
  newRequestOk : GoString → Bool
  roundTrip : GoString → Option UpstreamResponse

/-- One outbound request: its URL and the `User-Agent` set on it, if any. -/
structure Outbound where
  URL : GoString
  UserAgent : Option GoString
deriving DecidableEq, Repr

/-- The state shared by the handlers: the clock, the package-level rate
limiter, and the log of the outbound requests sent so far. -/
structure World where
  clock : Int
  limiter : RateLimiter
  calls : List Outbound
deriving DecidableEq, Repr

/-- The variables set with ldflags at build time. -/
structure BuildInfo where
  Version : GoString
  BuildTime : GoString
  GitCommit : GoString
deriving DecidableEq, Repr

/-- Go `client.Do(req)`: the request is sent (and logged); `none` is an error. -/
def Do (up : Upstream) (s : World) (url : GoString) (ua : Option GoString) :
    Option UpstreamResponse × World :=
  (up.roundTrip url, { s with calls := s.calls ++ [{ URL := url, UserAgent := ua }] })

/-- Go `client.Get(url)`: `NewRequest` then `Do`; a URL that `NewRequest`
rejects is an error without anything being sent. -/
def ClientGet (up : Upstream) (s : World) (url : GoString) : Option UpstreamResponse × World :=
  if up.newRequestOk url then Do up s url none else (none, s)

/-! ## The proxying handlers -/

/-- The `User-Agent` MusicBrainz asks for. -/
def userAgent (cfg : BuildInfo) : GoString :=
  "mdlabels/".toList ++ cfg.Version
    ++ " ( https://mdlabels.incursion.dev ; pborges475@gmail.com )".toList

/-- The URL `handleMusicBrainzSearch` builds with `fmt.Sprintf`. -/
def mbURL (query limit : GoString) : GoString :=
  "https://musicbrainz.org/ws/2/release/?query=".toList ++ QueryEscape query
    ++ "&fmt=json&limit=".toList ++ limit

/-- The `limit` of `handleMusicBrainzSearch`: the caller's value, `10` when it is
absent or empty. -/
def searchLimit (r : Request) : GoString :=
  if Get r.Query "limit".toList = [] then "10".toList else Get r.Query "limit".toList

/-- Go `handleMusicBrainzSearch`: the MusicBrainz search proxy. -/
def handleMusicBrainzSearch (cfg : BuildInfo) (up : Upstream) (e : Sched) (s : World)
    (r : Request) : ResponseWriter × World :=
  let w := ResponseWriter.fresh
  let query := Get r.Query "q".toList
  if query = [] then
    (Error w ("Missing query parameter ".toList ++ [Char.ofNat 39, 'q', Char.ofNat 39])
      StatusBadRequest, s)
  else
    let limit := searchLimit r
    -- Rate limit MusicBrainz API calls
    let waited := s.limiter.Wait s.clock e
    let s1 : World := { s with clock := waited.2, limiter := waited.1 }
    let url := mbURL query limit
    if !up.newRequestOk url then
      (Error w "Failed to create request".toList StatusInternalServerError, s1)
    else
      match Do up s1 url (some (userAgent cfg)) with
      | (none, s2) => (Error w "Failed to fetch from MusicBrainz".toList StatusBadGateway, s2)
      | (some resp, s2) =>
        if resp.StatusCode ≠ StatusOK then
          (Error w ("MusicBrainz API error: ".toList ++ itoa resp.StatusCode) resp.StatusCode, s2)
        else
          (Copy (w.Set "Content-Type".toList "application/json".toList) resp.Body, s2)

/-- The path segments the artwork handlers index:
`strings.Split(strings.Trim(r.URL.Path, "/"), "/")`. -/
def pathParts (r : Request) : List GoString :=
  Split (Trim r.Path "/".toList) '/'

/-- The MBID the artwork handlers extract: `pathParts[2]`. -/
def mbidOf (r : Request) : GoString := (pathParts r).getD 2 []

/-- The Cover Art Archive URL of `handleArtwork`. -/
def frontURL (mbid : GoString) : GoString :=
  "https://coverartarchive.org/release/".toList ++ QueryEscape mbid ++ "/front".toList

/-- The Cover Art Archive URL of `handleArtworkBase64`. -/
def front500URL (mbid : GoString) : GoString :=
  "https://coverartarchive.org/release/".toList ++ QueryEscape mbid ++ "/front-500".toList

/-- The Cover Art Archive URL of `handleArtworkThumbnails`. -/
def releaseURL (mbid : GoString) : GoString :=
  "https://coverartarchive.org/release/".toList ++ QueryEscape mbid

/-- Go `handleArtwork`: the Cover Art Archive proxy for a single image. -/
def handleArtwork (up : Upstream) (s : World) (r : Request) : ResponseWriter × World :=
  let w := ResponseWriter.fresh
  if (pathParts r).length < 3 then
    (Error w "Missing MBID".toList StatusBadRequest, s)
  else
    let mbid := mbidOf r
    let caaURL := frontURL mbid
    match ClientGet up s caaURL with
    | (none, s1) => (Error w "Failed to fetch artwork".toList StatusBadGateway, s1)
    | (some resp, s1) =>
      if resp.StatusCode = StatusNotFound then
        (Error w "Artwork not found".toList StatusNotFound, s1)
      else if resp.StatusCode ≠ StatusOK then
        (Error w ("Cover Art Archive error: ".toList ++ itoa resp.StatusCode)
          resp.StatusCode, s1)
      else
        (Copy ((w.Set "Cache-Control".toList "public, max-age=86400".toList).Set
          "Content-Type".toList resp.ContentType) resp.Body, s1)

/-- The data URL `handleArtworkBase64` builds from the upstream content type
and the image bytes. -/
def dataURL (contentType : GoString) (imageData : List Byte) : GoString :=
  let contentType := if contentType = [] then "image/jpeg".toList else contentType
  "data:".toList ++ contentType ++ ";base64,".toList ++ EncodeToString imageData

/-- Go `handleArtworkBase64`: Cover Art Archive artwork as a base64 data URL. -/
def handleArtworkBase64 (up : Upstream) (s : World) (r : Request) : ResponseWriter × World :=
  let w := ResponseWriter.fresh
  if (pathParts r).length < 3 then
    (Error w "Missing MBID".toList StatusBadRequest, s)
  else
    let mbid := mbidOf r
    let caaURL := front500URL mbid
    match ClientGet up s caaURL with
    | (none, s1) => (Error w "Failed to fetch artwork".toList StatusBadGateway, s1)
    | (some resp, s1) =>
      if resp.StatusCode = StatusNotFound then
        -- Return empty data URL for missing artwork
        (Encode (w.Set "Content-Type".toList "application/json".toList)
          [("artworkData".toList, [])], s1)
      else if resp.StatusCode ≠ StatusOK then
        (Error w ("Cover Art Archive error: ".toList ++ itoa resp.StatusCode)
          resp.StatusCode, s1)
      else if resp.readErr then
        (Error w "Failed to read artwork".toList StatusInternalServerError, s1)
      else
        (Encode ((w.Set "Content-Type".toList "application/json".toList).Set
          "Cache-Control".toList "public, max-age=86400".toList)
          [("artworkData".toList, dataURL resp.ContentType resp.Body)], s1)

/-- Go `handleArtworkThumbnails`: the Cover Art Archive metadata proxy. -/
def handleArtworkThumbnails (up : Upstream) (s : World) (r : Request) :
    ResponseWriter × World :=
  let w := ResponseWriter.fresh
  if (pathParts r).length < 3 then
    (Error w "Missing MBID".toList StatusBadRequest, s)
  else
    let mbid := mbidOf r
    let caaURL := releaseURL mbid
    match ClientGet up s caaURL with
    | (none, s1) => (Error w "Failed to fetch artwork metadata".toList StatusBadGateway, s1)
    | (some resp, s1) =>
      if resp.StatusCode = StatusNotFound then
        (Error w "Artwork not found".toList StatusNotFound, s1)
      else if resp.StatusCode ≠ StatusOK then
        (Error w ("Cover Art Archive error: ".toList ++ itoa resp.StatusCode)
          resp.StatusCode, s1)
      else
        (Copy ((w.Set "Cache-Control".toList "public, max-age=86400".toList).Set
          "Content-Type".toList "application/json".toList) resp.Body, s1)

/-- Go `handleVersion`: the version info endpoint. -/
def handleVersion (cfg : BuildInfo) (s : World) : ResponseWriter × World :=
  (Encode (ResponseWriter.fresh.Set "Content-Type".toList "application/json".toList)
    [("buildTime".toList, cfg.BuildTime), ("gitCommit".toList, cfg.GitCommit),
     ("version".toList, cfg.Version)], s)

/-! ## The API router -/

/-- Go `apiHandler`: the `switch` over the request path. -/
def apiHandler (cfg : BuildInfo) (up : Upstream) (e : Sched) (s : World) (r : Request) :
    ResponseWriter × World :=
  let path := r.Path
  if path = "/api/search".toList then handleMusicBrainzSearch cfg up e s r
  else if path = "/api/version".toList then handleVersion cfg s
  else if HasSuffix path "/base64".toList then handleArtworkBase64 up s r
  else if HasSuffix path "/thumbnails".toList then handleArtworkThumbnails up s r
  else if HasPrefix path "/api/artwork/".toList then handleArtwork up s r
  else (Error ResponseWriter.fresh "Not found".toList StatusNotFound, s)

/-! ## The embedded asset tree and the static handler -/

/-- The embedded asset tree below `mdlabels-ui/dist` (the `staticFS` of
`serveStatic`): its regular files, each with its slash-separated name
relative to the root and its content. Directories are the proper prefixes of
the file names, and the root. -/
abbrev AssetFS := List (GoString × List Byte)

/-- What `Stat` reports of a name that exists. -/
inductive Entry where
  | file (content : List Byte)
  | dir
deriving DecidableEq, Repr

/-- The test `fs.ValidPath` makes on each element of a name: not empty, not
`.`, not `..`. -/
def validElem (elem : GoString) : Bool :=
  !(elem == [] || elem == ".".toList || elem == "..".toList)

/-- Go `fs.ValidPath`: the name is `.`, or its slash-separated elements are
all non-empty and none is `.` or `..`. -/
def ValidPath (name : GoString) : Bool :=
  name == ".".toList || (Split name '/').all validElem

/-- Go `fs.Stat(staticFS, name)`: `none` is the error (an invalid name, or a
name that does not exist in the tree). -/
def Stat (fsys : AssetFS) (name : GoString) : Option Entry :=
  if !ValidPath name then none
  else if name = ".".toList then some Entry.dir
  else match fsys.find? (fun f => f.1 == name) with
    | some f => some (Entry.file f.2)
    | none => if fsys.any (fun f => HasPrefix f.1 (name ++ ['/'])) then some Entry.dir else none

/-- The rule of Go `path.Clean` for the elements of a rooted path: empty
elements and `.` are dropped, `..` removes the element before it (and is
dropped at the root). `acc` holds the elements kept so far, last first. -/
def cleanElems : List GoString → List GoString → List GoString
  | [], acc => acc.reverse
  | elem :: rest, acc =>
    if elem = [] ∨ elem = ".".toList then cleanElems rest acc
    else if elem = "..".toList then cleanElems rest acc.tail
    else cleanElems rest (elem :: acc)

/-- Go `path.Clean` of a rooted path (the file server cleans only paths that
begin with a slash). -/
def Clean (p : GoString) : GoString :=
  '/' :: Join (cleanElems (Split p '/') []) '/'

/-- Go `path.Base`: the last element of the path, trailing slashes removed. -/
def Base (p : GoString) : GoString :=
  if p = [] then ".".toList
  else
    let p1 := TrimRight p "/".toList
    if p1 = [] then "/".toList else (Split p1 '/').getLastD []

/-- Go `http.FS(staticFS).Open(name)`, followed by `Stat` on the file. -/
def httpOpen (fsys : AssetFS) (name : GoString) : Option Entry :=
  Stat fsys (if name = "/".toList then ".".toList else TrimPrefix name "/".toList)

/-- Go `http.localRedirect` for a request without a query string. -/
def localRedirect (w : ResponseWriter) (newPath : GoString) : ResponseWriter :=
  (w.Set "Location".toList newPath).WriteHeader StatusMovedPermanently

/-- Go `http.serveContent` for a plain GET (no range, no conditional header):
status 200 and the content. The headers it derives from the content
(`Content-Type`, `Content-Length`) are left out. -/
def serveContent (w : ResponseWriter) (content : List Byte) : ResponseWriter :=
  Copy (w.WriteHeader StatusOK) content

/-- Go `http.dirList`: status 200 and a listing of the directory `name`. -/
def dirList (w : ResponseWriter) (name : GoString) : ResponseWriter :=
  (w.Set "Content-Type".toList "text/html; charset=utf-8".toList).Write
    (Chunk.text ("<!doctype html> listing of ".toList ++ name))

/-- Go `http.serveFile(w, r, fs, name, true)`, where `urlPath` is
`r.URL.Path`. -/
def serveFile (fsys : AssetFS) (w : ResponseWriter) (urlPath name : GoString) :
    ResponseWriter :=
  -- redirect .../index.html to .../
  if HasSuffix urlPath "/index.html".toList then localRedirect w "./".toList
  else
    match httpOpen fsys name with
    | none => Error w "404 page not found".toList StatusNotFound
    | some Entry.dir =>
      -- redirect to canonical path: / at end of directory url
      if urlPath.getLast? ≠ some '/' then localRedirect w (Base urlPath ++ ['/'])
      else
        -- use contents of index.html for directory, if present
        match httpOpen fsys (TrimSuffix name "/".toList ++ "/index.html".toList) with
        | some (Entry.file content) => serveContent w content
        | some Entry.dir => dirList w (TrimSuffix name "/".toList ++ "/index.html".toList)
        | none => dirList w name
    | some (Entry.file content) =>
      if urlPath.getLast? = some '/' then localRedirect w ("../".toList ++ Base urlPath)
      else serveContent w content

/-- Go `http.FileServer(http.FS(staticFS)).ServeHTTP`, for the request path
`path`. -/
def FileServer (fsys : AssetFS) (w : ResponseWriter) (path : GoString) : ResponseWriter :=
  let upath := if !HasPrefix path "/".toList then '/' :: path else path
  serveFile fsys w upath (Clean upath)

/-- Go `isDevelopment`, with the value of the `MODE` environment variable. -/
def isDevelopment (mode : GoString) : Bool :=
  mode == "dev".toList || mode == "development".toList

/-- The path `serveStatic` hands to the file server: `/` when the requested
file does not exist in the tree, the request path otherwise. -/
def servedPath (fsys : AssetFS) (r : Request) : GoString :=
  let path := if r.Path = "/".toList then "/index.html".toList else r.Path
  -- Check if file exists
  if (Stat fsys (TrimPrefix path "/".toList)).isNone then "/".toList else r.Path

/-- Go `serveStatic`: the handler for static files, or the refusal of
development mode. -/
def serveStatic (mode : GoString) (fsys : AssetFS) (r : Request) : ResponseWriter :=
  if isDevelopment mode then
    Error ResponseWriter.fresh
      "Frontend runs on http://localhost:5173 in development mode".toList StatusNotFound
  else
    FileServer fsys ResponseWriter.fresh (servedPath fsys r)

/-! ## The router as the specification words it -/

/-- The policies the router chooses between. -/
inductive Policy where
  | search
  | versionInfo
  | base64Envelope
  | metadataJSON
  | passthrough
  | notFound
deriving DecidableEq, Repr

/-- The precedence table of the router: each rule is a test on the path and the
policy it selects; earlier rules win. -/
def routerRules : List ((GoString → Bool) × Policy) :=
  [ (fun path => path == "/api/search".toList, Policy.search),
    (fun path => path == "/api/version".toList, Policy.versionInfo),
    (fun path => HasSuffix path "/base64".toList, Policy.base64Envelope),
    (fun path => HasSuffix path "/thumbnails".toList, Policy.metadataJSON),
    (fun path => HasPrefix path "/api/artwork/".toList, Policy.passthrough) ]

/-- The policy of the first rule that matches the path; `notFound` when no rule
matches. -/
def firstMatch (path : GoString) : Policy :=
  match routerRules.find? (fun rule => rule.1 path) with
  | some rule => rule.2
  | none => Policy.notFound

/-- The handler that carries out a policy. -/
def runPolicy (cfg : BuildInfo) (up : Upstream) (e : Sched) (s : World) (r : Request) :
    Policy → ResponseWriter × World
  | Policy.search => handleMusicBrainzSearch cfg up e s r
  | Policy.versionInfo => handleVersion cfg s
  | Policy.base64Envelope => handleArtworkBase64 up s r
  | Policy.metadataJSON => handleArtworkThumbnails up s r
  | Policy.passthrough => handleArtwork up s r
  | Policy.notFound => (Error ResponseWriter.fresh "Not found".toList StatusNotFound, s)

/-- The path segment immediately before the last one, among the segments of
the path as written (split at every slash). -/
def segmentBeforeLast (path : GoString) : GoString :=
  (Split path '/').getD ((Split path '/').length - 2) []

/-! ## Stub inputs for the concrete instances -/

/-- A stub upstream that answers every request with the given status, the
content type `image/png` and a three-byte body. -/
def stubUpstream (code : Nat) : Upstream :=
  { newRequestOk := fun _ => true,
    roundTrip := fun _ => some ⟨code, "image/png".toList, [1, 2, 3], false⟩ }

/-- A stub upstream that cannot be reached: every round trip is a transport
error. -/
def downUpstream : Upstream :=
  { newRequestOk := fun _ => true, roundTrip := fun _ => none }

/-- A world at clock reading 1000 with the limiter of the program and no
outbound call made yet. -/
def stubWorld : World := { clock := 1000, limiter := mbRateLimiter, calls := [] }

/-- A small asset tree: the entry document and one script in a directory. -/
def stubAssets : AssetFS :=
  [("index.html".toList, [1, 2, 3]), ("assets/app.js".toList, [7, 8])]

/-- The build variables as they are without ldflags. -/
def devBuild : BuildInfo :=
  { Version := "dev".toList, BuildTime := "unknown".toList, GitCommit := "unknown".toList }

/-! ## Properties: strings -/

theorem Split_ne_nil (s : GoString) (sep : Char) : Split s sep ≠ [] := by
  induction s with
  | nil => simp [Split]
  | cons c cs ih =>
    unfold Split
    split_ifs
    · simp
    · cases h : Split cs sep with
      | nil => simp
      | cons x xs => simp

theorem Split_append_sep (x y : GoString) (sep : Char) :
    Split (x ++ sep :: y) sep = Split x sep ++ Split y sep := by
  induction x with
  | nil => simp [Split]
  | cons c x ih =>
    by_cases hc : c = sep
    · simp [Split, hc, ← ih]
    · have hne := Split_ne_nil x sep
      cases hx : Split x sep with
      | nil => exact absurd hx hne
      | cons h t =>
        have ih2 : Split (x ++ sep :: y) sep = h :: (t ++ Split y sep) := by
          rw [ih, hx]; rfl
        have e1 : Split (c :: (x ++ sep :: y)) sep = (c :: h) :: (t ++ Split y sep) := by
          rw [Split, if_neg hc, ih2]
        have e2 : Split (c :: x) sep = (c :: h) :: t := by
          rw [Split, if_neg hc, hx]
        rw [List.cons_append, e1, e2]
        rfl

theorem HasSuffix_iff (s p : GoString) : HasSuffix s p = true ↔ ∃ a, s = a ++ p := by
  unfold HasSuffix
  constructor
  · intro h
    simp only [Bool.and_eq_true, decide_eq_true_eq, beq_iff_eq] at h
    refine ⟨s.take (s.length - p.length), ?_⟩
    have := List.take_append_drop (s.length - p.length) s
    rw [h.2] at this
    exact this.symm
  · rintro ⟨a, rfl⟩
    simp

theorem Split_TrimLeft (s : GoString) :
    ∃ k, Split s '/' = List.replicate k [] ++ Split (TrimLeft s "/".toList) '/' := by
  induction s with
  | nil => exact ⟨0, rfl⟩
  | cons c cs ih =>
    by_cases hc : c = '/'
    · obtain ⟨k, hk⟩ := ih
      refine ⟨k + 1, ?_⟩
      subst hc
      have : TrimLeft ('/' :: cs) "/".toList = TrimLeft cs "/".toList := by
        simp [TrimLeft, List.dropWhile]
      rw [this]
      simp [Split, hk, List.replicate_succ]
    · refine ⟨0, ?_⟩
      have : TrimLeft (c :: cs) "/".toList = c :: cs := by
        simp [TrimLeft, List.dropWhile, hc]
      rw [this]
      rfl

theorem TrimLeft_getLast (s cutset : GoString) (c : Char) (hc : c ∉ cutset)
    (h : s.getLast? = some c) : (TrimLeft s cutset).getLast? = some c := by
  induction s with
  | nil => simp at h
  | cons x xs ih =>
    unfold TrimLeft
    rw [List.dropWhile_cons]
    split_ifs with hx
    · cases xs with
      | nil =>
        simp at h
        subst h
        simp at hx
        exact absurd hx hc
      | cons y ys =>
        rw [List.getLast?_cons_cons] at h
        exact ih h
    · exact h

theorem TrimRight_of_getLast (s cutset : GoString) (c : Char) (hc : c ∉ cutset)
    (h : s.getLast? = some c) : TrimRight s cutset = s := by
  unfold TrimRight
  have hr : s.reverse.head? = some c := by rw [List.head?_reverse]; exact h
  cases hs : s.reverse with
  | nil => rw [hs] at hr; simp at hr
  | cons x xs =>
    rw [hs] at hr
    simp at hr
    subst hr
    rw [List.dropWhile_cons, if_neg (by simpa using hc), ← hs, List.reverse_reverse]

theorem getD_replicate_append (k i : Nat) (e d : GoString) (l : List GoString) :
    (List.replicate k e ++ l).getD (k + i) d = l.getD i d := by
  induction k with
  | zero => simp
  | succ k ih =>
    rw [List.replicate_succ, List.cons_append, show k + 1 + i = (k + i) + 1 by omega,
      List.getD_cons_succ, ih]
/-! ## Properties: the rate limiter -/

theorem maxDuration_eq : maxDuration = 9223372036854775807 := by
  norm_num [maxDuration]

theorem minDuration_neg : minDuration < 0 := by
  norm_num [minDuration]

theorem wrap64_of_range (x : Int) (h0 : 0 ≤ x) (h1 : x ≤ maxDuration) : wrap64 x = x := by
  rw [maxDuration_eq] at h1
  have h : wrap64 x = (x + 9223372036854775808) % 18446744073709551616
      - 9223372036854775808 := by
    norm_num [wrap64]
  rw [h]
  omega

/-- The saturating difference of two clock readings in order: the true
difference, or `maxDuration` when the true difference is larger. -/
theorem Sub_of_le (t u : Int) (h : u ≤ t) :
    (Sub t u = t - u ∧ t - u ≤ maxDuration) ∨ (Sub t u = maxDuration ∧ maxDuration < t - u) := by
  have hmin := minDuration_neg
  unfold Sub
  split_ifs <;> omega

theorem Wait_lastRequest (rl : RateLimiter) (clock : Int) (e : Sched) :
    (rl.Wait clock e).1.lastRequest = (rl.Wait clock e).2 := rfl

theorem Wait_minInterval (rl : RateLimiter) (clock : Int) (e : Sched) :
    (rl.Wait clock e).1.minInterval = rl.minInterval := rfl

/-- One call of `Wait` that starts no earlier than the previous stamp returns at
least `minInterval` after that stamp. -/
theorem Wait_spaced (rl : RateLimiter) (clock : Int) (e : Sched)
    (hmax : rl.minInterval ≤ maxDuration)
    (hclk : rl.lastRequest ≤ clock) :
    rl.lastRequest + rl.minInterval ≤ (rl.Wait clock e).2 := by
  have ha : (0 : Int) ≤ (e.beforeSince : Int) := Int.ofNat_nonneg _
  have hb : (0 : Int) ≤ (e.oversleep : Int) := Int.ofNat_nonneg _
  have hc : (0 : Int) ≤ (e.beforeNow : Int) := Int.ofNat_nonneg _
  simp only [RateLimiter.Wait]
  rcases Sub_of_le (clock + e.beforeSince) rl.lastRequest (by omega) with ⟨hs, hle⟩ | ⟨hs, hgt⟩
  · rw [hs]
    by_cases hlt : clock + ↑e.beforeSince - rl.lastRequest < rl.minInterval
    · rw [if_pos hlt, wrap64_of_range _ (by omega) (by omega)]
      unfold Sleep
      rw [if_neg (by omega)]
      omega
    · rw [if_neg hlt]
      omega
  · rw [hs, if_neg (by omega)]
    omega

/-- From a state whose stamp is not ahead of the clock, every stamp of a run is
at least `minInterval` after the one before it, starting from `lastRequest`. -/
theorem waitStamps_chain (es : List Sched) :
    ∀ (rl : RateLimiter) (clock : Int),
      rl.minInterval ≤ maxDuration → rl.lastRequest ≤ clock →
      List.Chain (fun a b => a + rl.minInterval ≤ b) rl.lastRequest (waitStamps rl clock es) := by
  induction es with
  | nil => intro rl clock _ _; exact List.Chain.nil
  | cons e es ih =>
    intro rl clock hmax hclk
    simp only [waitStamps]
    refine List.Chain.cons (Wait_spaced rl clock e hmax hclk) ?_
    have := ih (rl.Wait clock e).1 (rl.Wait clock e).2 hmax (le_of_eq rfl)
    exact this

theorem waitStamps_length (es : List Sched) :
    ∀ (rl : RateLimiter) (clock : Int), (waitStamps rl clock es).length = es.length := by
  induction es with
  | nil => intro _ _; rfl
  | cons e es ih => intro rl clock; simp [waitStamps, ih]

/-- Along a chain whose steps are at least `m`, the last element is at least
`length * m` after the first. -/
theorem chain_span (m : Int) (l : List Int) :
    ∀ a : Int, List.Chain (fun x y => x + m ≤ y) a l →
      a + (l.length : Int) * m ≤ (a :: l).getLast (List.cons_ne_nil a l) := by
  induction l with
  | nil => intro a _; simp
  | cons b l ih =>
    intro a h
    rw [List.chain_cons] at h
    have h2 := ih b h.2
    rw [List.getLast_cons (List.cons_ne_nil b l)]
    simp only [List.length_cons, Nat.cast_add, Nat.cast_one]
    have : ((l.length : Int) + 1) * m = (l.length : Int) * m + m := by ring
    omega

/-- C1: for a limiter with `0 ≤ minInterval` (within the range of a
`Duration`) and any sequence of calls of `Wait`, run one after the other over
a clock that never runs backwards and with `Sleep(d)` lasting at least `d`:
there is one stamp per call, consecutive stamps differ by at least
`minInterval`, and the stamp of the last of the `N` calls is at least
`(N - 1) * minInterval` after the stamp of the first. -/
theorem Wait_sequence_spacing (rl : RateLimiter) (clock : Int) (es : List Sched)
    (h0 : 0 ≤ rl.minInterval) (hmax : rl.minInterval ≤ maxDuration) :
    (waitStamps rl clock es).length = es.length ∧
    List.Chain' (fun a b => a + rl.minInterval ≤ b) (waitStamps rl clock es) ∧
    ∀ h : waitStamps rl clock es ≠ [],
      (waitStamps rl clock es).head h + ((es.length : Int) - 1) * rl.minInterval
        ≤ (waitStamps rl clock es).getLast h := by
  have _hnonneg := h0
  refine ⟨waitStamps_length es rl clock, ?_, ?_⟩
  · cases es with
    | nil => exact List.chain'_nil
    | cons e es =>
      exact waitStamps_chain es (rl.Wait clock e).1 (rl.Wait clock e).2 hmax (le_of_eq rfl)
  · cases es with
    | nil => intro h; exact absurd rfl h
    | cons e es =>
      intro h
      have hc := waitStamps_chain es (rl.Wait clock e).1 (rl.Wait clock e).2 hmax (le_of_eq rfl)
      have hs := chain_span rl.minInterval _ _ hc
      rw [waitStamps_length] at hs
      simp only [waitStamps, List.head_cons, List.length_cons, Nat.cast_add, Nat.cast_one,
        add_sub_cancel_right]
      exact hs

/-- C1 at a concrete run: three calls on the limiter of the program, the second
arriving 5 ns after the first returned, the third 30 ms after the second. -/
theorem Wait_sequence_spacing_witness :
    (waitStamps mbRateLimiter 1000 [⟨0, 0, 0⟩, ⟨5, 1, 2⟩, ⟨30000000, 0, 0⟩]).length = 3 ∧
    List.Chain' (fun a b => a + mbRateLimiter.minInterval ≤ b)
      (waitStamps mbRateLimiter 1000 [⟨0, 0, 0⟩, ⟨5, 1, 2⟩, ⟨30000000, 0, 0⟩]) ∧
    ∀ h : waitStamps mbRateLimiter 1000 [⟨0, 0, 0⟩, ⟨5, 1, 2⟩, ⟨30000000, 0, 0⟩] ≠ [],
      (waitStamps mbRateLimiter 1000 [⟨0, 0, 0⟩, ⟨5, 1, 2⟩, ⟨30000000, 0, 0⟩]).head h
        + (((3 : Nat) : Int) - 1) * mbRateLimiter.minInterval
        ≤ (waitStamps mbRateLimiter 1000 [⟨0, 0, 0⟩, ⟨5, 1, 2⟩, ⟨30000000, 0, 0⟩]).getLast h :=
  Wait_sequence_spacing mbRateLimiter 1000 [⟨0, 0, 0⟩, ⟨5, 1, 2⟩, ⟨30000000, 0, 0⟩]
    (by decide) (by rw [maxDuration_eq]; decide)

/-! ## Properties: the router -/

/-- C2: `apiHandler` carries out exactly the policy of the first rule of the
precedence table that matches the path (search, version info, base64
envelope, metadata JSON, passthrough, in this order), and when no rule
matches it answers 404 and leaves the world as it was. -/
theorem apiHandler_first_match (cfg : BuildInfo) (up : Upstream) (e : Sched) (s : World)
    (r : Request) :
    apiHandler cfg up e s r = runPolicy cfg up e s r (firstMatch r.Path) ∧
    (runPolicy cfg up e s r Policy.notFound).1.StatusCode = 404 ∧
    (runPolicy cfg up e s r Policy.notFound).2 = s := by
  refine ⟨?_, rfl, rfl⟩
  unfold apiHandler firstMatch routerRules
  generalize "/api/search".toList = p1
  generalize "/api/version".toList = p2
  generalize "/base64".toList = p3
  generalize "/thumbnails".toList = p4
  generalize "/api/artwork/".toList = p5
  by_cases h1 : r.Path = p1
  · have b1 : (r.Path == p1) = true := by simp [h1]
    simp only [List.find?, b1, if_pos h1, runPolicy]
  · have b1 : (r.Path == p1) = false := by simp [h1]
    by_cases h2 : r.Path = p2
    · have b2 : (r.Path == p2) = true := by simp [h2]
      simp only [List.find?, b1, b2, if_neg h1, if_pos h2, runPolicy]
    · have b2 : (r.Path == p2) = false := by simp [h2]
      cases h3 : HasSuffix r.Path p3
      · cases h4 : HasSuffix r.Path p4
        · cases h5 : HasPrefix r.Path p5 <;>
            simp [List.find?, b1, b2, h1, h2, h3, h4, h5, runPolicy]
        · simp [List.find?, b1, b2, h1, h2, h3, h4, runPolicy]
      · simp [List.find?, b1, b2, h1, h2, h3, runPolicy]

/-! ## Properties: the proxying handlers -/

theorem Get_of_absent (q : List (GoString × GoString)) (key : GoString)
    (h : ∀ kv ∈ q, kv.1 ≠ key) : Get q key = [] := by
  unfold Get
  have : q.find? (fun kv => kv.1 == key) = none := by
    rw [List.find?_eq_none]
    intro kv hkv
    simpa using h kv hkv
  rw [this]

/-- C5: a search request whose query has no `q` parameter, or whose `q` is
empty, is answered 400, and the world is left as it was: no outbound call is
logged and the rate limiter (its timestamp included) is unchanged. -/
theorem search_without_q (cfg : BuildInfo) (up : Upstream) (e : Sched) (s : World)
    (r : Request)
    (h : (∀ kv ∈ r.Query, kv.1 ≠ "q".toList) ∨ Get r.Query "q".toList = []) :
    (handleMusicBrainzSearch cfg up e s r).1.StatusCode = 400 ∧
    (handleMusicBrainzSearch cfg up e s r).2.calls = s.calls ∧
    (handleMusicBrainzSearch cfg up e s r).2.limiter = s.limiter ∧
    (handleMusicBrainzSearch cfg up e s r).2 = s := by
  have hq : Get r.Query "q".toList = [] := by
    rcases h with h | h
    · exact Get_of_absent _ _ h
    · exact h
  simp only [handleMusicBrainzSearch, hq, if_true]
  refine ⟨?_, ?_, ?_, ?_⟩ <;> first | rfl | trivial

/-- C5 at concrete requests: one with only a `limit` parameter, whatever the
upstream would answer. -/
theorem search_without_q_witness :
    (handleMusicBrainzSearch ⟨"dev".toList, [], []⟩ ⟨fun _ => true, fun _ => none⟩ ⟨0, 0, 0⟩
        ⟨1000, mbRateLimiter, []⟩ ⟨"/api/search".toList, [("limit".toList, "5".toList)]⟩).1.StatusCode
      = 400 ∧
    (handleMusicBrainzSearch ⟨"dev".toList, [], []⟩ ⟨fun _ => true, fun _ => none⟩ ⟨0, 0, 0⟩
        ⟨1000, mbRateLimiter, []⟩ ⟨"/api/search".toList, [("limit".toList, "5".toList)]⟩).2.calls
      = [] ∧
    (handleMusicBrainzSearch ⟨"dev".toList, [], []⟩ ⟨fun _ => true, fun _ => none⟩ ⟨0, 0, 0⟩
        ⟨1000, mbRateLimiter, []⟩ ⟨"/api/search".toList, [("limit".toList, "5".toList)]⟩).2.limiter
      = mbRateLimiter ∧
    (handleMusicBrainzSearch ⟨"dev".toList, [], []⟩ ⟨fun _ => true, fun _ => none⟩ ⟨0, 0, 0⟩
        ⟨1000, mbRateLimiter, []⟩ ⟨"/api/search".toList, [("limit".toList, "5".toList)]⟩).2
      = ⟨1000, mbRateLimiter, []⟩ :=
  search_without_q ⟨"dev".toList, [], []⟩ ⟨fun _ => true, fun _ => none⟩ ⟨0, 0, 0⟩
    ⟨1000, mbRateLimiter, []⟩ ⟨"/api/search".toList, [("limit".toList, "5".toList)]⟩
    (Or.inr (by decide))

/-- C6: each of the three artwork handlers answers 400 to a path that, trimmed
of its leading and trailing slashes, splits into fewer than three segments,
and leaves the world as it was (no upstream call). -/
theorem artwork_short_path (up : Upstream) (s : World) (r : Request)
    (h : (Split (Trim r.Path "/".toList) '/').length < 3) :
    ((handleArtwork up s r).1.StatusCode = 400 ∧ (handleArtwork up s r).2 = s) ∧
    ((handleArtworkBase64 up s r).1.StatusCode = 400 ∧ (handleArtworkBase64 up s r).2 = s) ∧
    ((handleArtworkThumbnails up s r).1.StatusCode = 400 ∧
      (handleArtworkThumbnails up s r).2 = s) := by
  have h3 : (pathParts r).length < 3 := h
  refine ⟨?_, ?_, ?_⟩
  · simp only [handleArtwork, h3, if_true]
    refine ⟨?_, ?_⟩ <;> first | rfl | trivial
  · simp only [handleArtworkBase64, h3, if_true]
    refine ⟨?_, ?_⟩ <;> first | rfl | trivial
  · simp only [handleArtworkThumbnails, h3, if_true]
    refine ⟨?_, ?_⟩ <;> first | rfl | trivial

/-- C6 at the path `/api/artwork/`, which trims to two segments. -/
theorem artwork_short_path_witness :
    ((handleArtwork ⟨fun _ => true, fun _ => none⟩ ⟨0, mbRateLimiter, []⟩
        ⟨"/api/artwork/".toList, []⟩).1.StatusCode = 400 ∧
      (handleArtwork ⟨fun _ => true, fun _ => none⟩ ⟨0, mbRateLimiter, []⟩
        ⟨"/api/artwork/".toList, []⟩).2 = ⟨0, mbRateLimiter, []⟩) ∧
    ((handleArtworkBase64 ⟨fun _ => true, fun _ => none⟩ ⟨0, mbRateLimiter, []⟩
        ⟨"/api/artwork/".toList, []⟩).1.StatusCode = 400 ∧
      (handleArtworkBase64 ⟨fun _ => true, fun _ => none⟩ ⟨0, mbRateLimiter, []⟩
        ⟨"/api/artwork/".toList, []⟩).2 = ⟨0, mbRateLimiter, []⟩) ∧
    ((handleArtworkThumbnails ⟨fun _ => true, fun _ => none⟩ ⟨0, mbRateLimiter, []⟩
        ⟨"/api/artwork/".toList, []⟩).1.StatusCode = 400 ∧
      (handleArtworkThumbnails ⟨fun _ => true, fun _ => none⟩ ⟨0, mbRateLimiter, []⟩
        ⟨"/api/artwork/".toList, []⟩).2 = ⟨0, mbRateLimiter, []⟩) :=
  artwork_short_path ⟨fun _ => true, fun _ => none⟩ ⟨0, mbRateLimiter, []⟩
    ⟨"/api/artwork/".toList, []⟩ (by decide)

/-- C4: when the upstream artwork call answers 404, `handleArtwork` answers
404, whereas `handleArtworkBase64` answers 200 with the JSON object whose one
field `artworkData` is the empty string. -/
theorem artwork_upstream_not_found (up : Upstream) (s : World) (r1 r2 : Request)
    (resp1 resp2 : UpstreamResponse)
    (hlen1 : 3 ≤ (Split (Trim r1.Path "/".toList) '/').length)
    (hlen2 : 3 ≤ (Split (Trim r2.Path "/".toList) '/').length)
    (h1 : (ClientGet up s (frontURL (mbidOf r1))).1 = some resp1)
    (h2 : (ClientGet up s (front500URL (mbidOf r2))).1 = some resp2)
    (hs1 : resp1.StatusCode = 404) (hs2 : resp2.StatusCode = 404) :
    (handleArtwork up s r1).1.StatusCode = 404 ∧
    (handleArtworkBase64 up s r2).1.StatusCode = 200 ∧
    (handleArtworkBase64 up s r2).1.body = [Chunk.json [("artworkData".toList, [])]] := by
  have g1 : ¬ (pathParts r1).length < 3 := Nat.not_lt.mpr hlen1
  have g2 : ¬ (pathParts r2).length < 3 := Nat.not_lt.mpr hlen2
  refine ⟨?_, ?_, ?_⟩
  · simp only [handleArtwork, g1, if_false]
    rcases hc : ClientGet up s (frontURL (mbidOf r1)) with ⟨o, s1⟩
    rw [hc] at h1
    simp only at h1
    subst h1
    simp only [hs1, StatusNotFound, if_true]
    rfl
  · simp only [handleArtworkBase64, g2, if_false]
    rcases hc : ClientGet up s (front500URL (mbidOf r2)) with ⟨o, s1⟩
    rw [hc] at h2
    simp only at h2
    subst h2
    simp only [hs2, StatusNotFound, if_true]
    rfl
  · simp only [handleArtworkBase64, g2, if_false]
    rcases hc : ClientGet up s (front500URL (mbidOf r2)) with ⟨o, s1⟩
    rw [hc] at h2
    simp only at h2
    subst h2
    simp only [hs2, StatusNotFound, if_true]
    rfl

/-- C4 at the identifier `abc`, against a stub upstream that answers 404. -/
theorem artwork_upstream_not_found_witness :
    (handleArtwork (stubUpstream 404) stubWorld ⟨"/api/artwork/abc".toList, []⟩).1.StatusCode
      = 404 ∧
    (handleArtworkBase64 (stubUpstream 404) stubWorld
      ⟨"/api/artwork/abc/base64".toList, []⟩).1.StatusCode = 200 ∧
    (handleArtworkBase64 (stubUpstream 404) stubWorld
      ⟨"/api/artwork/abc/base64".toList, []⟩).1.body = [Chunk.json [("artworkData".toList, [])]] :=
  artwork_upstream_not_found (stubUpstream 404) stubWorld ⟨"/api/artwork/abc".toList, []⟩
    ⟨"/api/artwork/abc/base64".toList, []⟩ ⟨404, "image/png".toList, [1, 2, 3], false⟩
    ⟨404, "image/png".toList, [1, 2, 3], false⟩ (by decide) (by decide) rfl rfl rfl rfl

/-- `http.Error` on a fresh writer, with a code that `WriteHeader` sends as the
final status (101, or 200 to 999): the caller receives that status. -/
theorem Error_final (msg : GoString) (code : Nat)
    (h : code = 101 ∨ (200 ≤ code ∧ code ≤ 999)) :
    (Error ResponseWriter.fresh msg code).StatusCode = code ∧
    (Error ResponseWriter.fresh msg code).panicked = false := by
  have h1 : ¬ (code < 100 ∨ code > 999) := by omega
  have h2 : ¬ (100 ≤ code ∧ code ≤ 199 ∧ code ≠ 101) := by omega
  simp [Error, ResponseWriter.Set, ResponseWriter.WriteHeader, ResponseWriter.Write,
    ResponseWriter.StatusCode, ResponseWriter.fresh, h1, h2]

/-- The claim C8 as stated fails: an upstream that answers with the status 99
(a status line `HTTP/1.1 099` parses to it) is not mirrored. `http.Error`
passes 99 to `WriteHeader`, which panics for a code below 100: the handler
writes no status and no body, and the caller receives no response. -/
theorem upstream_failure_status_counterexample :
    (ClientGet (stubUpstream 99) stubWorld
        (frontURL (mbidOf ⟨"/api/artwork/abc".toList, []⟩))).1
      = some ⟨99, "image/png".toList, [1, 2, 3], false⟩ ∧
    (99 : Nat) ≠ 200 ∧
    (handleArtwork (stubUpstream 99) stubWorld ⟨"/api/artwork/abc".toList, []⟩).1.panicked
      = true ∧
    (handleArtwork (stubUpstream 99) stubWorld ⟨"/api/artwork/abc".toList, []⟩).1.status
      = none ∧
    (handleArtwork (stubUpstream 99) stubWorld ⟨"/api/artwork/abc".toList, []⟩).1.body = [] ∧
    (handleArtwork (stubUpstream 99) stubWorld ⟨"/api/artwork/abc".toList, []⟩).1.StatusCode
      ≠ 99 ∧
    (handleMusicBrainzSearch devBuild (stubUpstream 99) ⟨0, 0, 0⟩ stubWorld
        ⟨"/api/search".toList, [("q".toList, "abc".toList)]⟩).1.StatusCode ≠ 99 ∧
    (handleArtworkBase64 (stubUpstream 99) stubWorld
        ⟨"/api/artwork/abc/base64".toList, []⟩).1.StatusCode ≠ 99 ∧
    (handleArtworkThumbnails (stubUpstream 99) stubWorld
        ⟨"/api/artwork/abc/thumbnails".toList, []⟩).1.StatusCode ≠ 99 := by
  decide

/-- C8, amended: for the four proxying handlers, on a search request `rs` with
a non-empty `q` whose upstream request is created and on an artwork request
`ra` with an identifier: a transport error of the upstream call gives 502,
and an upstream status `s` other than 200 that `WriteHeader` sends as the
final status (`s = 101`, or `200 ≤ s ≤ 999`) is mirrored to the caller,
except that the base64 handler turns an upstream 404 into 200. -/
theorem upstream_failure_status (cfg : BuildInfo) (up : Upstream) (e : Sched) (s : World)
    (rs ra : Request)
    (hq : Get rs.Query "q".toList ≠ [])
    (hnew : up.newRequestOk (mbURL (Get rs.Query "q".toList) (searchLimit rs)) = true)
    (hlen : 3 ≤ (Split (Trim ra.Path "/".toList) '/').length) :
    -- search
    ((up.roundTrip (mbURL (Get rs.Query "q".toList) (searchLimit rs)) = none →
        (handleMusicBrainzSearch cfg up e s rs).1.StatusCode = 502) ∧
      (∀ resp, up.roundTrip (mbURL (Get rs.Query "q".toList) (searchLimit rs)) = some resp →
        resp.StatusCode ≠ 200 →
        (resp.StatusCode = 101 ∨ (200 ≤ resp.StatusCode ∧ resp.StatusCode ≤ 999)) →
        (handleMusicBrainzSearch cfg up e s rs).1.StatusCode = resp.StatusCode)) ∧
    -- artwork passthrough
    (((ClientGet up s (frontURL (mbidOf ra))).1 = none →
        (handleArtwork up s ra).1.StatusCode = 502) ∧
      (∀ resp, (ClientGet up s (frontURL (mbidOf ra))).1 = some resp →
        resp.StatusCode ≠ 200 →
        (resp.StatusCode = 101 ∨ (200 ≤ resp.StatusCode ∧ resp.StatusCode ≤ 999)) →
        (handleArtwork up s ra).1.StatusCode = resp.StatusCode)) ∧
    -- artwork base64
    (((ClientGet up s (front500URL (mbidOf ra))).1 = none →
        (handleArtworkBase64 up s ra).1.StatusCode = 502) ∧
      (∀ resp, (ClientGet up s (front500URL (mbidOf ra))).1 = some resp →
        resp.StatusCode ≠ 200 → resp.StatusCode ≠ 404 →
        (resp.StatusCode = 101 ∨ (200 ≤ resp.StatusCode ∧ resp.StatusCode ≤ 999)) →
        (handleArtworkBase64 up s ra).1.StatusCode = resp.StatusCode) ∧
      (∀ resp, (ClientGet up s (front500URL (mbidOf ra))).1 = some resp →
        resp.StatusCode = 404 → (handleArtworkBase64 up s ra).1.StatusCode = 200)) ∧
    -- artwork thumbnails
    (((ClientGet up s (releaseURL (mbidOf ra))).1 = none →
        (handleArtworkThumbnails up s ra).1.StatusCode = 502) ∧
      (∀ resp, (ClientGet up s (releaseURL (mbidOf ra))).1 = some resp →
        resp.StatusCode ≠ 200 →
        (resp.StatusCode = 101 ∨ (200 ≤ resp.StatusCode ∧ resp.StatusCode ≤ 999)) →
        (handleArtworkThumbnails up s ra).1.StatusCode = resp.StatusCode)) := by
  have g : ¬ (pathParts ra).length < 3 := Nat.not_lt.mpr hlen
  refine ⟨⟨?_, ?_⟩, ⟨?_, ?_⟩, ⟨?_, ?_, ?_⟩, ⟨?_, ?_⟩⟩
  · intro h
    simp only [handleMusicBrainzSearch, hq, if_false, hnew, Bool.not_true, Bool.false_eq_true,
      Do, h]
    rfl
  · intro resp h hne hfin
    simp only [handleMusicBrainzSearch, hq, if_false, hnew, Bool.not_true, Bool.false_eq_true,
      Do, h]
    rw [if_pos (show resp.StatusCode ≠ StatusOK from hne)]
    exact (Error_final _ _ hfin).1
  · intro h
    simp only [handleArtwork, g, if_false]
    rcases hc : ClientGet up s (frontURL (mbidOf ra)) with ⟨o, s1⟩
    rw [hc] at h
    simp only at h
    subst h
    rfl
  · intro resp h hne hfin
    simp only [handleArtwork, g, if_false]
    rcases hc : ClientGet up s (frontURL (mbidOf ra)) with ⟨o, s1⟩
    rw [hc] at h
    simp only at h
    subst h
    simp only []
    by_cases h404 : resp.StatusCode = StatusNotFound
    · rw [if_pos h404, h404]
      rfl
    · rw [if_neg h404, if_pos (show resp.StatusCode ≠ StatusOK from hne)]
      exact (Error_final _ _ hfin).1
  · intro h
    simp only [handleArtworkBase64, g, if_false]
    rcases hc : ClientGet up s (front500URL (mbidOf ra)) with ⟨o, s1⟩
    rw [hc] at h
    simp only at h
    subst h
    rfl
  · intro resp h hne h404 hfin
    simp only [handleArtworkBase64, g, if_false]
    rcases hc : ClientGet up s (front500URL (mbidOf ra)) with ⟨o, s1⟩
    rw [hc] at h
    simp only at h
    subst h
    simp only []
    rw [if_neg (show ¬ resp.StatusCode = StatusNotFound from h404), if_pos (show resp.StatusCode ≠ StatusOK from hne)]
    exact (Error_final _ _ hfin).1
  · intro resp h h404
    simp only [handleArtworkBase64, g, if_false]
    rcases hc : ClientGet up s (front500URL (mbidOf ra)) with ⟨o, s1⟩
    rw [hc] at h
    simp only at h
    subst h
    simp only []
    rw [if_pos (show resp.StatusCode = StatusNotFound from h404)]
    rfl
  · intro h
    simp only [handleArtworkThumbnails, g, if_false]
    rcases hc : ClientGet up s (releaseURL (mbidOf ra)) with ⟨o, s1⟩
    rw [hc] at h
    simp only at h
    subst h
    rfl
  · intro resp h hne hfin
    simp only [handleArtworkThumbnails, g, if_false]
    rcases hc : ClientGet up s (releaseURL (mbidOf ra)) with ⟨o, s1⟩
    rw [hc] at h
    simp only at h
    subst h
    simp only []
    by_cases h404 : resp.StatusCode = StatusNotFound
    · rw [if_pos h404, h404]
      rfl
    · rw [if_neg h404, if_pos (show resp.StatusCode ≠ StatusOK from hne)]
      exact (Error_final _ _ hfin).1

/-- C8, amended, at concrete inputs: an unreachable upstream gives 502 from all
four handlers; an upstream that answers 503 gives 503 from all four; an
upstream that answers 404 gives 404 from the thumbnails handler and 200 from
the base64 handler. -/
theorem upstream_failure_status_witness :
    ((handleMusicBrainzSearch devBuild downUpstream ⟨0, 0, 0⟩ stubWorld
        ⟨"/api/search".toList, [("q".toList, "abc".toList)]⟩).1.StatusCode = 502 ∧
      (handleArtwork downUpstream stubWorld ⟨"/api/artwork/abc".toList, []⟩).1.StatusCode = 502 ∧
      (handleArtworkBase64 downUpstream stubWorld
        ⟨"/api/artwork/abc".toList, []⟩).1.StatusCode = 502 ∧
      (handleArtworkThumbnails downUpstream stubWorld
        ⟨"/api/artwork/abc".toList, []⟩).1.StatusCode = 502) ∧
    ((handleMusicBrainzSearch devBuild (stubUpstream 503) ⟨0, 0, 0⟩ stubWorld
        ⟨"/api/search".toList, [("q".toList, "abc".toList)]⟩).1.StatusCode = 503 ∧
      (handleArtwork (stubUpstream 503) stubWorld
        ⟨"/api/artwork/abc".toList, []⟩).1.StatusCode = 503 ∧
      (handleArtworkBase64 (stubUpstream 503) stubWorld
        ⟨"/api/artwork/abc".toList, []⟩).1.StatusCode = 503 ∧
      (handleArtworkThumbnails (stubUpstream 503) stubWorld
        ⟨"/api/artwork/abc".toList, []⟩).1.StatusCode = 503) ∧
    ((handleArtworkThumbnails (stubUpstream 404) stubWorld
        ⟨"/api/artwork/abc".toList, []⟩).1.StatusCode = 404 ∧
      (handleArtworkBase64 (stubUpstream 404) stubWorld
        ⟨"/api/artwork/abc".toList, []⟩).1.StatusCode = 200) := by
  have down := upstream_failure_status devBuild downUpstream ⟨0, 0, 0⟩ stubWorld
    ⟨"/api/search".toList, [("q".toList, "abc".toList)]⟩ ⟨"/api/artwork/abc".toList, []⟩
    (by decide) rfl (by decide)
  have busy := upstream_failure_status devBuild (stubUpstream 503) ⟨0, 0, 0⟩ stubWorld
    ⟨"/api/search".toList, [("q".toList, "abc".toList)]⟩ ⟨"/api/artwork/abc".toList, []⟩
    (by decide) rfl (by decide)
  have missing := upstream_failure_status devBuild (stubUpstream 404) ⟨0, 0, 0⟩ stubWorld
    ⟨"/api/search".toList, [("q".toList, "abc".toList)]⟩ ⟨"/api/artwork/abc".toList, []⟩
    (by decide) rfl (by decide)
  refine ⟨⟨down.1.1 rfl, down.2.1.1 rfl, down.2.2.1.1 rfl, down.2.2.2.1 rfl⟩,
    ⟨busy.1.2 _ rfl (by decide) (by decide), busy.2.1.2 _ rfl (by decide) (by decide),
      busy.2.2.1.2.1 _ rfl (by decide) (by decide) (by decide),
      busy.2.2.2.2 _ rfl (by decide) (by decide)⟩,
    ⟨missing.2.2.2.2 _ rfl (by decide) (by decide), missing.2.2.1.2.2 _ rfl rfl⟩⟩

/-- C10: a search request with a non-empty `q` sends at most one upstream
request, exactly when `http.NewRequest` accepts the URL, and its URL is
`https://musicbrainz.org/ws/2/release/?query=` followed by `QueryEscape(q)`,
`&fmt=json&limit=` and the limit, which is `10` when the `limit` parameter is
absent or empty and the caller's value, copied as it is, otherwise. -/
theorem search_upstream_url (cfg : BuildInfo) (up : Upstream) (e : Sched) (s : World)
    (r : Request) (hq : Get r.Query "q".toList ≠ []) :
    (handleMusicBrainzSearch cfg up e s r).2.calls =
      if up.newRequestOk
          ("https://musicbrainz.org/ws/2/release/?query=".toList
            ++ QueryEscape (Get r.Query "q".toList) ++ "&fmt=json&limit=".toList
            ++ (if Get r.Query "limit".toList = [] then "10".toList
                else Get r.Query "limit".toList)) = true then
        s.calls ++
          [{ URL := "https://musicbrainz.org/ws/2/release/?query=".toList
              ++ QueryEscape (Get r.Query "q".toList) ++ "&fmt=json&limit=".toList
              ++ (if Get r.Query "limit".toList = [] then "10".toList
                  else Get r.Query "limit".toList),
             UserAgent := some (userAgent cfg) }]
      else s.calls := by
  simp only [handleMusicBrainzSearch, hq, if_false, Do, mbURL, searchLimit]
  cases hnew : up.newRequestOk
      ("https://musicbrainz.org/ws/2/release/?query=".toList
        ++ QueryEscape (Get r.Query "q".toList) ++ "&fmt=json&limit=".toList
        ++ (if Get r.Query "limit".toList = [] then "10".toList
            else Get r.Query "limit".toList)) with
  | false => simp only [Bool.not_false, if_true, Bool.false_eq_true, if_false]
  | true =>
    simp only [Bool.not_true, Bool.false_eq_true, if_false, if_true]
    cases up.roundTrip
      ("https://musicbrainz.org/ws/2/release/?query=".toList
        ++ QueryEscape (Get r.Query "q".toList) ++ "&fmt=json&limit=".toList
        ++ (if Get r.Query "limit".toList = [] then "10".toList
            else Get r.Query "limit".toList)) with
    | none => rfl
    | some resp =>
      simp only []
      split_ifs <;> rfl

/-- C10 at concrete requests: `q=a b` with the limit `5x`, which is not a
number and is copied as it is, and `q=a b` without a limit. -/
theorem search_upstream_url_witness :
    (handleMusicBrainzSearch devBuild (stubUpstream 200) ⟨0, 0, 0⟩ stubWorld
        ⟨"/api/search".toList, [("q".toList, "a b".toList), ("limit".toList, "5x".toList)]⟩).2.calls
      = [{ URL := "https://musicbrainz.org/ws/2/release/?query=a+b&fmt=json&limit=5x".toList,
           UserAgent := some (userAgent devBuild) }] ∧
    (handleMusicBrainzSearch devBuild (stubUpstream 200) ⟨0, 0, 0⟩ stubWorld
        ⟨"/api/search".toList, [("q".toList, "a b".toList)]⟩).2.calls
      = [{ URL := "https://musicbrainz.org/ws/2/release/?query=a+b&fmt=json&limit=10".toList,
           UserAgent := some (userAgent devBuild) }] :=
  ⟨search_upstream_url devBuild (stubUpstream 200) ⟨0, 0, 0⟩ stubWorld
      ⟨"/api/search".toList, [("q".toList, "a b".toList), ("limit".toList, "5x".toList)]⟩
      (by decide),
    search_upstream_url devBuild (stubUpstream 200) ⟨0, 0, 0⟩ stubWorld
      ⟨"/api/search".toList, [("q".toList, "a b".toList)]⟩ (by decide)⟩

/-! ## Properties: the identifier of the base64 handler -/

/-- The claim C3 as stated fails: the path `/api/artwork/x/y/base64` ends in
`/base64` and is dispatched to the base64 policy; the segment immediately
before `base64` is `y`, but the handler indexes the third segment and asks
the upstream for the identifier `x`. -/
theorem base64_identifier_counterexample :
    HasSuffix "/api/artwork/x/y/base64".toList "/base64".toList = true ∧
    firstMatch "/api/artwork/x/y/base64".toList = Policy.base64Envelope ∧
    segmentBeforeLast "/api/artwork/x/y/base64".toList = "y".toList ∧
    (apiHandler devBuild (stubUpstream 200) ⟨0, 0, 0⟩ stubWorld
        ⟨"/api/artwork/x/y/base64".toList, []⟩).2.calls
      = [{ URL := "https://coverartarchive.org/release/x/front-500".toList, UserAgent := none }] ∧
    (apiHandler devBuild (stubUpstream 200) ⟨0, 0, 0⟩ stubWorld
        ⟨"/api/artwork/x/y/base64".toList, []⟩).2.calls
      ≠ [{ URL := front500URL (segmentBeforeLast "/api/artwork/x/y/base64".toList),
           UserAgent := none }] := by
  decide

/-- C3, amended: a path that ends in `/base64` is dispatched to the base64
handler and its last segment is `base64`; the identifier the handler uses to
build the upstream URL is the third segment of the path trimmed of its
leading and trailing slashes; when the trimmed path has exactly four
segments (the shape `/api/artwork/ID/base64`), that identifier is the
segment immediately before the `base64` segment. -/
theorem base64_identifier (cfg : BuildInfo) (up : Upstream) (e : Sched) (s : World)
    (r : Request) (hsuf : HasSuffix r.Path "/base64".toList = true) :
    apiHandler cfg up e s r = handleArtworkBase64 up s r ∧
    (Split r.Path '/').getLast? = some "base64".toList ∧
    (3 ≤ (Split (Trim r.Path "/".toList) '/').length →
      (handleArtworkBase64 up s r).2
        = (ClientGet up s (front500URL ((Split (Trim r.Path "/".toList) '/').getD 2 []))).2) ∧
    ((Split (Trim r.Path "/".toList) '/').length = 4 →
      (Split (Trim r.Path "/".toList) '/').getD 2 [] = segmentBeforeLast r.Path) := by
  refine ⟨?_, ?_, ?_, ?_⟩
  · have h1 : r.Path ≠ "/api/search".toList := by
      intro h; rw [h] at hsuf; exact absurd hsuf (by decide)
    have h2 : r.Path ≠ "/api/version".toList := by
      intro h; rw [h] at hsuf; exact absurd hsuf (by decide)
    unfold apiHandler
    simp only [if_neg h1, if_neg h2, hsuf, if_true]
  · obtain ⟨a, ha⟩ := (HasSuffix_iff _ _).mp hsuf
    have hb : "/base64".toList = '/' :: "base64".toList := rfl
    rw [ha, hb, Split_append_sep]
    have hs : Split "base64".toList '/' = ["base64".toList] := by decide
    rw [hs, List.getLast?_append]
    rfl
  · intro hlen
    have g : ¬ (Split (Trim r.Path "/".toList) '/').length < 3 := Nat.not_lt.mpr hlen
    simp only [handleArtworkBase64, mbidOf, pathParts, g, if_false]
    rcases ClientGet up s (front500URL ((Split (Trim r.Path "/".toList) '/').getD 2 []))
      with ⟨o, s1⟩
    cases o with
    | none => rfl
    | some resp =>
      simp only []
      split_ifs <;> rfl
  · intro hlen
    have hlast : r.Path.getLast? = some '4' := by
      obtain ⟨a, ha⟩ := (HasSuffix_iff _ _).mp hsuf
      rw [ha, List.getLast?_append]
      rfl
    have hcut : '4' ∉ "/".toList := by decide
    have htrim : Trim r.Path "/".toList = TrimLeft r.Path "/".toList := by
      unfold Trim
      exact TrimRight_of_getLast _ _ '4' hcut (TrimLeft_getLast _ _ '4' hcut hlast)
    rw [htrim] at hlen ⊢
    obtain ⟨k, hk⟩ := Split_TrimLeft r.Path
    unfold segmentBeforeLast
    rw [hk, List.length_append, List.length_replicate, hlen,
      show k + 4 - 2 = k + 2 by omega, getD_replicate_append]

/-- C3, amended, at the path `/api/artwork/abc/base64`: the upstream is asked
for the identifier `abc`, the segment before `base64`. -/
theorem base64_identifier_witness :
    apiHandler devBuild (stubUpstream 200) ⟨0, 0, 0⟩ stubWorld
        ⟨"/api/artwork/abc/base64".toList, []⟩
      = handleArtworkBase64 (stubUpstream 200) stubWorld ⟨"/api/artwork/abc/base64".toList, []⟩ ∧
    (handleArtworkBase64 (stubUpstream 200) stubWorld ⟨"/api/artwork/abc/base64".toList, []⟩).2
      = (ClientGet (stubUpstream 200) stubWorld
          (front500URL ((Split (Trim "/api/artwork/abc/base64".toList "/".toList) '/').getD 2 []))).2 ∧
    (Split (Trim "/api/artwork/abc/base64".toList "/".toList) '/').getD 2 []
      = segmentBeforeLast "/api/artwork/abc/base64".toList ∧
    segmentBeforeLast "/api/artwork/abc/base64".toList = "abc".toList :=
  have h := base64_identifier devBuild (stubUpstream 200) ⟨0, 0, 0⟩ stubWorld
    ⟨"/api/artwork/abc/base64".toList, []⟩ (by decide)
  ⟨h.1, h.2.2.1 (by decide), h.2.2.2 (by decide), by decide⟩

/-! ## Properties: base64 and the data URL -/

/-- Every six-bit value is decoded from its character, and its character is
neither padding nor a line break. -/
theorem dec6_enc6 : ∀ v, v < 64 →
    dec6 (enc6 v) = some v ∧ enc6 v ≠ '=' ∧ enc6 v ≠ '\r' ∧ enc6 v ≠ '\n' := by
  decide

theorem toByte_val (b : Byte) (x : Nat) (h : x % 256 = b.val) : toByte x = b :=
  Fin.ext h

/-- Decoding quantum by quantum undoes `EncodeToString`. -/
theorem decodeQuanta_EncodeToString (n : Nat) :
    ∀ B : List Byte, B.length ≤ n → decodeQuanta (EncodeToString B) = some B := by
  induction n with
  | zero =>
    intro B hB
    have : B = [] := List.length_eq_zero.mp (Nat.le_zero.mp hB)
    subst this
    rfl
  | succ n ih =>
    intro B hB
    match B, hB with
    | [], _ => rfl
    | [a], _ =>
      have ha := a.isLt
      have h0 := dec6_enc6 (a.val * 65536 / 262144 % 64) (Nat.mod_lt _ (by decide))
      have h1 := dec6_enc6 (a.val * 65536 / 4096 % 64) (Nat.mod_lt _ (by decide))
      simp only [EncodeToString, decodeQuanta, true_and, if_true, h0.1, h1.1]
      congr 2
      exact toByte_val a _ (by omega)
    | [a, b], _ =>
      have ha := a.isLt
      have hb := b.isLt
      have h0 := dec6_enc6 ((a.val * 65536 + b.val * 256) / 262144 % 64)
        (Nat.mod_lt _ (by decide))
      have h1 := dec6_enc6 ((a.val * 65536 + b.val * 256) / 4096 % 64)
        (Nat.mod_lt _ (by decide))
      have h2 := dec6_enc6 ((a.val * 65536 + b.val * 256) / 64 % 64)
        (Nat.mod_lt _ (by decide))
      simp only [EncodeToString, decodeQuanta, true_and, if_true, h0.1, h1.1, h2.1,
        if_neg h2.2.1]
      have e1 := toByte_val a
        ((((a.val * 65536 + b.val * 256) / 262144 % 64) * 262144
          + ((a.val * 65536 + b.val * 256) / 4096 % 64) * 4096
          + ((a.val * 65536 + b.val * 256) / 64 % 64) * 64) / 65536) (by omega)
      have e2 := toByte_val b
        ((((a.val * 65536 + b.val * 256) / 262144 % 64) * 262144
          + ((a.val * 65536 + b.val * 256) / 4096 % 64) * 4096
          + ((a.val * 65536 + b.val * 256) / 64 % 64) * 64) / 256) (by omega)
      rw [e1, e2]
    | a :: b :: c :: rest, hB =>
      have ha := a.isLt
      have hb := b.isLt
      have hc := c.isLt
      have hrest : rest.length ≤ n := by
        simp only [List.length_cons] at hB
        omega
      have h0 := dec6_enc6 ((a.val * 65536 + b.val * 256 + c.val) / 262144 % 64)
        (Nat.mod_lt _ (by decide))
      have h1 := dec6_enc6 ((a.val * 65536 + b.val * 256 + c.val) / 4096 % 64)
        (Nat.mod_lt _ (by decide))
      have h2 := dec6_enc6 ((a.val * 65536 + b.val * 256 + c.val) / 64 % 64)
        (Nat.mod_lt _ (by decide))
      have h3 := dec6_enc6 ((a.val * 65536 + b.val * 256 + c.val) % 64)
        (Nat.mod_lt _ (by decide))
      simp only [EncodeToString, decodeQuanta, h0.1, h1.1, h2.1, h3.1, h3.2.1, and_false,
        if_false, ih rest hrest]
      have e1 := toByte_val a
        ((((a.val * 65536 + b.val * 256 + c.val) / 262144 % 64) * 262144
          + ((a.val * 65536 + b.val * 256 + c.val) / 4096 % 64) * 4096
          + ((a.val * 65536 + b.val * 256 + c.val) / 64 % 64) * 64
          + (a.val * 65536 + b.val * 256 + c.val) % 64) / 65536) (by omega)
      have e2 := toByte_val b
        ((((a.val * 65536 + b.val * 256 + c.val) / 262144 % 64) * 262144
          + ((a.val * 65536 + b.val * 256 + c.val) / 4096 % 64) * 4096
          + ((a.val * 65536 + b.val * 256 + c.val) / 64 % 64) * 64
          + (a.val * 65536 + b.val * 256 + c.val) % 64) / 256) (by omega)
      have e3 := toByte_val c
        (((a.val * 65536 + b.val * 256 + c.val) / 262144 % 64) * 262144
          + ((a.val * 65536 + b.val * 256 + c.val) / 4096 % 64) * 4096
          + ((a.val * 65536 + b.val * 256 + c.val) / 64 % 64) * 64
          + (a.val * 65536 + b.val * 256 + c.val) % 64) (by omega)
      rw [e1, e2, e3]

/-- The encoder never emits a carriage return or a line feed. -/
theorem EncodeToString_no_break (n : Nat) :
    ∀ B : List Byte, B.length ≤ n → ∀ ch ∈ EncodeToString B, ch ≠ '\r' ∧ ch ≠ '\n' := by
  induction n with
  | zero =>
    intro B hB
    have : B = [] := List.length_eq_zero.mp (Nat.le_zero.mp hB)
    subst this
    intro ch hch
    simp [EncodeToString] at hch
  | succ n ih =>
    intro B hB
    match B, hB with
    | [], _ => intro ch hch; simp [EncodeToString] at hch
    | [a], _ =>
      intro ch hch
      simp only [EncodeToString, List.mem_cons, List.mem_singleton, List.not_mem_nil,
        or_false, or_self] at hch
      rcases hch with h | h | h
      · rw [h]; exact (dec6_enc6 _ (Nat.mod_lt _ (by decide))).2.2
      · rw [h]; exact (dec6_enc6 _ (Nat.mod_lt _ (by decide))).2.2
      · rw [h]; decide
    | [a, b], _ =>
      intro ch hch
      simp only [EncodeToString, List.mem_cons, List.mem_singleton, List.not_mem_nil,
        or_false] at hch
      rcases hch with h | h | h | h
      · rw [h]; exact (dec6_enc6 _ (Nat.mod_lt _ (by decide))).2.2
      · rw [h]; exact (dec6_enc6 _ (Nat.mod_lt _ (by decide))).2.2
      · rw [h]; exact (dec6_enc6 _ (Nat.mod_lt _ (by decide))).2.2
      · rw [h]; decide
    | a :: b :: c :: rest, hB =>
      have hrest : rest.length ≤ n := by
        simp only [List.length_cons] at hB
        omega
      intro ch hch
      simp only [EncodeToString, List.mem_cons] at hch
      rcases hch with h | h | h | h | h
      · rw [h]; exact (dec6_enc6 _ (Nat.mod_lt _ (by decide))).2.2
      · rw [h]; exact (dec6_enc6 _ (Nat.mod_lt _ (by decide))).2.2
      · rw [h]; exact (dec6_enc6 _ (Nat.mod_lt _ (by decide))).2.2
      · rw [h]; exact (dec6_enc6 _ (Nat.mod_lt _ (by decide))).2.2
      · exact ih rest hrest ch h

/-- Standard base64 decoding undoes standard base64 encoding. -/
theorem DecodeString_EncodeToString (B : List Byte) :
    DecodeString (EncodeToString B) = some B := by
  unfold DecodeString
  have hf : (EncodeToString B).filter (fun c => !(c == '\r' || c == '\n'))
      = EncodeToString B := by
    rw [List.filter_eq_self]
    intro ch hch
    have h := EncodeToString_no_break B.length B (Nat.le_refl _) ch hch
    simp [h.1, h.2]
  rw [hf]
  exact decodeQuanta_EncodeToString B.length B (Nat.le_refl _)

/-- C7: for an upstream 200 response with content type `C` whose body `B` is
read in full, `handleArtworkBase64` answers 200 with the JSON object whose
one field `artworkData` is `data:` ++ C' ++ `;base64,` ++ stdBase64(B), where
`C'` is `C` when `C` is non-empty and `image/jpeg` otherwise; and standard
base64 decoding of what follows `data:` ++ C' ++ `;base64,` gives back `B`. -/
theorem base64_data_url (up : Upstream) (s : World) (r : Request) (resp : UpstreamResponse)
    (hlen : 3 ≤ (Split (Trim r.Path "/".toList) '/').length)
    (hget : (ClientGet up s (front500URL (mbidOf r))).1 = some resp)
    (h200 : resp.StatusCode = 200) (hread : resp.readErr = false) :
    (handleArtworkBase64 up s r).1.StatusCode = 200 ∧
    (handleArtworkBase64 up s r).1.body =
      [Chunk.json [("artworkData".toList,
        "data:".toList ++ (if resp.ContentType = [] then "image/jpeg".toList else resp.ContentType)
          ++ ";base64,".toList ++ EncodeToString resp.Body)]] ∧
    DecodeString
      (("data:".toList ++ (if resp.ContentType = [] then "image/jpeg".toList else resp.ContentType)
          ++ ";base64,".toList ++ EncodeToString resp.Body).drop
        ("data:".toList ++ (if resp.ContentType = [] then "image/jpeg".toList
          else resp.ContentType) ++ ";base64,".toList).length)
      = some resp.Body := by
  have g : ¬ (pathParts r).length < 3 := Nat.not_lt.mpr hlen
  have hbody : (handleArtworkBase64 up s r).1 =
      Encode ((ResponseWriter.fresh.Set "Content-Type".toList "application/json".toList).Set
          "Cache-Control".toList "public, max-age=86400".toList)
        [("artworkData".toList, dataURL resp.ContentType resp.Body)] := by
    simp only [handleArtworkBase64, g, if_false]
    rcases hc : ClientGet up s (front500URL (mbidOf r)) with ⟨o, s1⟩
    rw [hc] at hget
    simp only at hget
    subst hget
    simp only [h200, StatusNotFound, StatusOK, hread]
    rfl
  refine ⟨?_, ?_, ?_⟩
  · rw [hbody]; rfl
  · rw [hbody]; rfl
  · rw [List.drop_left]
    exact DecodeString_EncodeToString resp.Body

/-- C7 at the identifier `abc`, against a stub upstream that answers 200 with a
three-byte PNG body. -/
theorem base64_data_url_witness :
    (handleArtworkBase64 (stubUpstream 200) stubWorld
        ⟨"/api/artwork/abc/base64".toList, []⟩).1.StatusCode = 200 ∧
    (handleArtworkBase64 (stubUpstream 200) stubWorld
        ⟨"/api/artwork/abc/base64".toList, []⟩).1.body =
      [Chunk.json [("artworkData".toList, "data:image/png;base64,AQID".toList)]] ∧
    DecodeString ("data:image/png;base64,AQID".toList.drop "data:image/png;base64,".toList.length)
      = some [1, 2, 3] :=
  base64_data_url (stubUpstream 200) stubWorld ⟨"/api/artwork/abc/base64".toList, []⟩
    ⟨200, "image/png".toList, [1, 2, 3], false⟩ (by decide) rfl rfl rfl

/-! ## Properties: the static handler -/

theorem Join_Split (s : GoString) (sep : Char) : Join (Split s sep) sep = s := by
  induction s with
  | nil => rfl
  | cons c cs ih =>
    by_cases hc : c = sep
    · have hne := Split_ne_nil cs sep
      cases hx : Split cs sep with
      | nil => exact absurd hx hne
      | cons h t =>
        rw [Split, if_pos hc, hx, Join, ← hx, ih, hc]
        rfl
    · have hne := Split_ne_nil cs sep
      cases hx : Split cs sep with
      | nil => exact absurd hx hne
      | cons h t =>
        rw [hx] at ih
        rw [Split, if_neg hc, hx]
        cases t with
        | nil =>
          simp only [Join] at ih ⊢
          rw [ih]
        | cons y ys =>
          simp only [Join] at ih ⊢
          rw [← ih]
          rfl

theorem cleanElems_kept (l : List GoString) :
    ∀ acc, l.all validElem = true → cleanElems l acc = acc.reverse ++ l := by
  induction l with
  | nil => intro acc _; simp [cleanElems]
  | cons x xs ih =>
    intro acc h
    rw [List.all_cons, Bool.and_eq_true] at h
    have hx := h.1
    unfold validElem at hx
    simp only [Bool.not_eq_true', Bool.or_eq_false_iff, beq_eq_false_iff_ne, ne_eq] at hx
    rw [cleanElems, if_neg (by rintro (h1 | h1); exact hx.1.1 h1; exact hx.1.2 h1),
      if_neg hx.2, ih _ h.2]
    simp

theorem Stat_valid (fsys : AssetFS) (n : GoString) (en : Entry) (h : Stat fsys n = some en) :
    ValidPath n = true := by
  unfold Stat at h
  by_cases hv : ValidPath n = true
  · exact hv
  · simp [hv] at h

theorem Stat_file_ne_dot (fsys : AssetFS) (n : GoString) (content : List Byte)
    (h : Stat fsys n = some (Entry.file content)) : n ≠ ".".toList := by
  intro hn
  unfold Stat at h
  rw [if_pos hn] at h
  split_ifs at h
  exact absurd h (by simp)

theorem ValidPath_elems (n : GoString) (hv : ValidPath n = true) (hn : n ≠ ".".toList) :
    (Split n '/').all validElem = true := by
  unfold ValidPath at hv
  rw [Bool.or_eq_true] at hv
  rcases hv with hv | hv
  · exact absurd (by simpa using hv) hn
  · exact hv

/-- A valid name other than `.` is not empty and does not end in a slash. -/
theorem ValidPath_getLast (n : GoString) (hv : ValidPath n = true) (hn : n ≠ ".".toList) :
    ('/' :: n).getLast? ≠ some '/' := by
  have hall := ValidPath_elems n hv hn
  intro hl
  rcases List.eq_nil_or_concat n with h0 | ⟨a, c, hac⟩
  · subst h0
    exact absurd hall (by decide)
  · rw [List.concat_eq_append] at hac
    subst hac
    have hc : c = '/' := by
      rw [← List.cons_append, List.getLast?_append] at hl
      simpa using hl
    subst hc
    rw [Split_append_sep] at hall
    simp [Split, validElem] at hall

theorem Clean_valid (n : GoString) (hv : ValidPath n = true) (hn : n ≠ ".".toList) :
    Clean ('/' :: n) = '/' :: n := by
  have hall := ValidPath_elems n hv hn
  have hs : Split ('/' :: n) '/' = [] :: Split n '/' := by
    rw [Split, if_pos rfl]
  unfold Clean
  rw [hs, cleanElems, if_pos (Or.inl rfl), cleanElems_kept _ _ hall]
  simp only [List.reverse_nil, List.nil_append]
  rw [Join_Split]

theorem upath_eq (p : GoString) :
    (if (!HasPrefix p "/".toList) = true then '/' :: p else p) = '/' :: TrimPrefix p "/".toList := by
  cases p with
  | nil => rfl
  | cons c cs =>
    by_cases hc : c = '/'
    · subst hc
      have h : HasPrefix ('/' :: cs) "/".toList = true := by
        simp [HasPrefix]
      simp only [TrimPrefix, h, Bool.not_true, Bool.false_eq_true, if_false, if_true]
      rfl
    · have h : HasPrefix (c :: cs) "/".toList = false := by
        simp [HasPrefix, hc]
      simp only [TrimPrefix, h, Bool.not_false, if_true, Bool.false_eq_true, if_false]

theorem FileServer_eq (fsys : AssetFS) (w : ResponseWriter) (p : GoString) :
    FileServer fsys w p
      = serveFile fsys w ('/' :: TrimPrefix p "/".toList) (Clean ('/' :: TrimPrefix p "/".toList)) := by
  unfold FileServer
  simp only [upath_eq]

theorem Stat_root (fsys : AssetFS) : Stat fsys ".".toList = some Entry.dir := by
  unfold Stat
  rw [if_neg (by decide), if_pos rfl]

/-- The file server answers the root path with the content of `index.html`
when the tree holds that file. -/
theorem FileServer_root (fsys : AssetFS) (w : ResponseWriter) (D : List Byte)
    (hidx : Stat fsys "index.html".toList = some (Entry.file D)) :
    FileServer fsys w "/".toList = serveContent w D := by
  rw [FileServer_eq]
  have e1 : ('/' :: TrimPrefix "/".toList "/".toList) = "/".toList := by decide
  have e2 : Clean "/".toList = "/".toList := by decide
  rw [e1, e2]
  unfold serveFile
  rw [if_neg (by decide)]
  have e3 : httpOpen fsys "/".toList = some Entry.dir := by
    unfold httpOpen
    rw [if_pos rfl]
    exact Stat_root fsys
  have e4 : httpOpen fsys (TrimSuffix "/".toList "/".toList ++ "/index.html".toList)
      = some (Entry.file D) := by
    have e5 : TrimSuffix "/".toList "/".toList ++ "/index.html".toList = "/index.html".toList := by
      decide
    rw [e5]
    unfold httpOpen
    rw [if_neg (by decide)]
    have e6 : TrimPrefix "/index.html".toList "/".toList = "index.html".toList := by decide
    rw [e6]
    exact hidx
  simp only [e3, e4]
  rw [if_neg (by decide)]

/-- The file server answers the path of a regular file with its content, unless
the path ends in `/index.html`. -/
theorem FileServer_file (fsys : AssetFS) (w : ResponseWriter) (p : GoString)
    (content : List Byte)
    (hst : Stat fsys (TrimPrefix p "/".toList) = some (Entry.file content))
    (hsuf : HasSuffix ('/' :: TrimPrefix p "/".toList) "/index.html".toList = false) :
    FileServer fsys w p = serveContent w content := by
  rw [FileServer_eq]
  have hv := Stat_valid _ _ _ hst
  have hn := Stat_file_ne_dot _ _ _ hst
  rw [Clean_valid _ hv hn]
  have hne : TrimPrefix p "/".toList ≠ [] := by
    intro h0
    rw [h0] at hv
    exact absurd hv (by decide)
  have hopen : httpOpen fsys ('/' :: TrimPrefix p "/".toList) = some (Entry.file content) := by
    unfold httpOpen
    have e1 : ('/' :: TrimPrefix p "/".toList) ≠ "/".toList := by
      intro h
      exact hne (List.cons.inj h).2
    rw [if_neg e1]
    have e2 : TrimPrefix ('/' :: TrimPrefix p "/".toList) "/".toList = TrimPrefix p "/".toList := by
      simp [TrimPrefix, HasPrefix]
    rw [e2]
    exact hst
  unfold serveFile
  rw [hsuf]
  simp only [Bool.false_eq_true, if_false, hopen]
  rw [if_neg (ValidPath_getLast _ hv hn)]

/-- The claim C9 as stated fails: in the tree `stubAssets` the path
`/index.html` exists as a regular file and is handed to the file responder
unchanged, but the response is a 301 redirect to `./` with an empty body, not
the content of the file. -/
theorem serveStatic_counterexample :
    isDevelopment "production".toList = false ∧
    Stat stubAssets (TrimPrefix "/index.html".toList "/".toList) = some (Entry.file [1, 2, 3]) ∧
    servedPath stubAssets ⟨"/index.html".toList, []⟩ = "/index.html".toList ∧
    (serveStatic "production".toList stubAssets ⟨"/index.html".toList, []⟩).StatusCode = 301 ∧
    (serveStatic "production".toList stubAssets ⟨"/index.html".toList, []⟩).header
      = [("Location".toList, "./".toList)] ∧
    (serveStatic "production".toList stubAssets ⟨"/index.html".toList, []⟩).body = [] ∧
    serveStatic "production".toList stubAssets ⟨"/index.html".toList, []⟩
      ≠ serveContent ResponseWriter.fresh [1, 2, 3] := by
  decide

/-- C9, amended: in bundled mode, over an asset tree whose root holds the
entry document `index.html` with content `D`, the static handler hands the
file responder the path `/` when the requested path (with `/` read as
`/index.html`, leading slash removed) does not exist in the tree, and the
request path unchanged when it does. A path that does not exist, and the
path `/`, are answered 200 with `D`; a path that exists as a regular file and
does not end in `/index.html` is answered 200 with the content of that
file. -/
theorem serveStatic_bundled (mode : GoString) (fsys : AssetFS) (r : Request) (D : List Byte)
    (hmode : isDevelopment mode = false)
    (hidx : Stat fsys "index.html".toList = some (Entry.file D)) :
    serveStatic mode fsys r = FileServer fsys ResponseWriter.fresh (servedPath fsys r) ∧
    (Stat fsys (TrimPrefix (if r.Path = "/".toList then "/index.html".toList else r.Path)
        "/".toList) = none →
      servedPath fsys r = "/".toList ∧
      serveStatic mode fsys r = serveContent ResponseWriter.fresh D) ∧
    (Stat fsys (TrimPrefix (if r.Path = "/".toList then "/index.html".toList else r.Path)
        "/".toList) ≠ none →
      servedPath fsys r = r.Path) ∧
    (r.Path = "/".toList → serveStatic mode fsys r = serveContent ResponseWriter.fresh D) ∧
    (∀ content, r.Path ≠ "/".toList →
      Stat fsys (TrimPrefix r.Path "/".toList) = some (Entry.file content) →
      HasSuffix ('/' :: TrimPrefix r.Path "/".toList) "/index.html".toList = false →
      serveStatic mode fsys r = serveContent ResponseWriter.fresh content) ∧
    (∀ content, (serveContent ResponseWriter.fresh content).StatusCode = 200 ∧
      (serveContent ResponseWriter.fresh content).body
        = if content = [] then [] else [Chunk.bytes content]) := by
  have hserve : serveStatic mode fsys r
      = FileServer fsys ResponseWriter.fresh (servedPath fsys r) := by
    unfold serveStatic
    rw [hmode]
    rfl
  refine ⟨hserve, ?_, ?_, ?_, ?_, ?_⟩
  · intro hnone
    have hp : servedPath fsys r = "/".toList := by
      unfold servedPath
      simp only [hnone, Option.isNone_none, if_true]
    exact ⟨hp, by rw [hserve, hp]; exact FileServer_root fsys _ D hidx⟩
  · intro hsome
    unfold servedPath
    cases hst : Stat fsys (TrimPrefix (if r.Path = "/".toList then "/index.html".toList
        else r.Path) "/".toList) with
    | none => exact absurd hst hsome
    | some en => simp only [hst, Option.isNone_some, Bool.false_eq_true, if_false]
  · intro hroot
    have hp : servedPath fsys r = "/".toList := by
      unfold servedPath
      rw [hroot]
      simp only [ite_self]
    rw [hserve, hp]
    exact FileServer_root fsys _ D hidx
  · intro content hne hst hsuf
    have hp : servedPath fsys r = r.Path := by
      unfold servedPath
      simp only [if_neg hne, hst, Option.isNone_some, Bool.false_eq_true, if_false]
    rw [hserve, hp]
    exact FileServer_file fsys _ r.Path content hst hsuf
  · intro content
    unfold serveContent Copy
    split_ifs <;> exact ⟨rfl, rfl⟩

/-- C9, amended, on the tree `stubAssets`: the deep link `/nope/deep` and the
path `/` are answered 200 with the entry document, and `/assets/app.js` is
answered 200 with the script. -/
theorem serveStatic_bundled_witness :
    servedPath stubAssets ⟨"/nope/deep".toList, []⟩ = "/".toList ∧
    serveStatic "production".toList stubAssets ⟨"/nope/deep".toList, []⟩
      = serveContent ResponseWriter.fresh [1, 2, 3] ∧
    serveStatic "production".toList stubAssets ⟨"/".toList, []⟩
      = serveContent ResponseWriter.fresh [1, 2, 3] ∧
    servedPath stubAssets ⟨"/assets/app.js".toList, []⟩ = "/assets/app.js".toList ∧
    serveStatic "production".toList stubAssets ⟨"/assets/app.js".toList, []⟩
      = serveContent ResponseWriter.fresh [7, 8] ∧
    (serveContent ResponseWriter.fresh [7, 8]).StatusCode = 200 ∧
    (serveContent ResponseWriter.fresh [7, 8]).body = [Chunk.bytes [7, 8]] :=
  have deep := serveStatic_bundled "production".toList stubAssets ⟨"/nope/deep".toList, []⟩
    [1, 2, 3] (by decide) (by decide)
  have root := serveStatic_bundled "production".toList stubAssets ⟨"/".toList, []⟩
    [1, 2, 3] (by decide) (by decide)
  have script := serveStatic_bundled "production".toList stubAssets
    ⟨"/assets/app.js".toList, []⟩ [1, 2, 3] (by decide) (by decide)
  ⟨(deep.2.1 (by decide)).1, (deep.2.1 (by decide)).2, root.2.2.2.1 rfl,
    script.2.2.1 (by decide), script.2.2.2.2.1 [7, 8] (by decide) (by decide) (by decide),
    (script.2.2.2.2.2 [7, 8]).1, (script.2.2.2.2.2 [7, 8]).2⟩

end MdLabels
